import Mathlib

/-!
Verification of the FastClinica extraction-and-enrichment pipeline
(`src/main.py`) against its natural-language specification.

The Python code is shallowly embedded: Python strings are Lean `String`s,
but every Python string operation (`.lower()`, `.upper()`, `.strip()`,
`in`, slicing, …) is re-implemented over the character list `String.data`
so that all definitions are executable by the kernel.  Python dicts are
association lists with dict update semantics (`dset`: replace in place if
the key is present, else append).  Python lists are Lean lists.  Code that
can raise an exception returns an `Option`.  External collaborators
(Selenium, the Bedrock client, `json.loads`, the local language model) are
abstracted as parameters, exactly at the interface boundary the spec
draws.
-/

/-! ## Python string primitives -/

/-- The whitespace characters stripped by Python's `str.strip()` (ASCII
subset, which is all that can occur in the scraped data). -/
def isWsChar (c : Char) : Bool :=
  c = ' ' || c = '\t' || c = '\n' || c = '\r' || c = Char.ofNat 11 || c = Char.ofNat 12

/-- Python `str.lower()` restricted to the alphabet that occurs in the
program's string constants: ASCII letters plus the Spanish accented
letters.  Other characters are left unchanged, as Python does for
characters without a case mapping. -/
def pyLowerChar (c : Char) : Char :=
  match c with
  | 'A' => 'a' | 'B' => 'b' | 'C' => 'c' | 'D' => 'd' | 'E' => 'e'
  | 'F' => 'f' | 'G' => 'g' | 'H' => 'h' | 'I' => 'i' | 'J' => 'j'
  | 'K' => 'k' | 'L' => 'l' | 'M' => 'm' | 'N' => 'n' | 'O' => 'o'
  | 'P' => 'p' | 'Q' => 'q' | 'R' => 'r' | 'S' => 's' | 'T' => 't'
  | 'U' => 'u' | 'V' => 'v' | 'W' => 'w' | 'X' => 'x' | 'Y' => 'y'
  | 'Z' => 'z'
  | 'Á' => 'á' | 'É' => 'é' | 'Í' => 'í' | 'Ó' => 'ó' | 'Ú' => 'ú'
  | 'Ñ' => 'ñ' | 'Ü' => 'ü'
  | c => c

/-- Python `str.upper()` restricted in the same way as `pyLowerChar`. -/
def pyUpperChar (c : Char) : Char :=
  match c with
  | 'a' => 'A' | 'b' => 'B' | 'c' => 'C' | 'd' => 'D' | 'e' => 'E'
  | 'f' => 'F' | 'g' => 'G' | 'h' => 'H' | 'i' => 'I' | 'j' => 'J'
  | 'k' => 'K' | 'l' => 'L' | 'm' => 'M' | 'n' => 'N' | 'o' => 'O'
  | 'p' => 'P' | 'q' => 'Q' | 'r' => 'R' | 's' => 'S' | 't' => 'T'
  | 'u' => 'U' | 'v' => 'V' | 'w' => 'W' | 'x' => 'X' | 'y' => 'Y'
  | 'z' => 'Z'
  | 'á' => 'Á' | 'é' => 'É' | 'í' => 'Í' | 'ó' => 'Ó' | 'ú' => 'Ú'
  | 'ñ' => 'Ñ' | 'ü' => 'Ü'
  | c => c

/-- Python `str.lower()`. -/
def pyLower (s : String) : String := ⟨s.data.map pyLowerChar⟩

/-- Python `str.upper()`. -/
def pyUpper (s : String) : String := ⟨s.data.map pyUpperChar⟩

/-- `str.strip()` on the underlying character list. -/
def stripData (cs : List Char) : List Char :=
  ((cs.dropWhile isWsChar).reverse.dropWhile isWsChar).reverse

/-- Python `str.strip()`. -/
def pyStrip (s : String) : String := ⟨stripData s.data⟩

/-- Python substring containment `a in b`. -/
def pyIn (a b : String) : Bool := decide (a.data <:+: b.data)

/-- Python prefix test `b.startswith(a)` (here: `a` is the candidate
front part of `b`). -/
def pyStarts (b a : String) : Bool := decide (a.data <+: b.data)

/-- Python slicing `s[:n]` (character based, as in Python 3). -/
def pyTake (s : String) (n : Nat) : String := ⟨s.data.take n⟩

/-- Python `len(s)`. -/
def pyLen (s : String) : Nat := s.data.length

/-- Helper for `pySplitWs`: `acc` is the current word, reversed. -/
def splitWsAux (acc : List Char) : List Char → List (List Char)
  | [] => if acc.isEmpty then [] else [acc.reverse]
  | c :: rest =>
    if isWsChar c then
      if acc.isEmpty then splitWsAux [] rest
      else acc.reverse :: splitWsAux [] rest
    else splitWsAux (c :: acc) rest

/-- Python `s.split()` (split on maximal whitespace runs, dropping empty
pieces). -/
def pySplitWs (s : String) : List String := (splitWsAux [] s.data).map String.mk

/-- Python `sep.join(parts)`. -/
def pyJoin (sep : String) : List String → String
  | [] => ""
  | [p] => p
  | p :: rest => p ++ sep ++ pyJoin sep rest

/-! ## Dates (`datetime.strptime(s, "%Y-%m-%d")` / `strftime`) -/

/-- A calendar date as produced by `datetime.strptime(s, "%Y-%m-%d")`. -/
structure Fecha where
  y : Nat
  m : Nat
  d : Nat
deriving DecidableEq, Repr

/-- Gregorian month length, as validated by `datetime`. -/
def daysInMonth (y m : Nat) : Nat :=
  if m = 2 then (if (y % 4 = 0 ∧ y % 100 ≠ 0) ∨ y % 400 = 0 then 29 else 28)
  else if m = 4 ∨ m = 6 ∨ m = 9 ∨ m = 11 then 30
  else 31

/-- Splitting a character list on `'-'` (the effect of matching the
format string `"%Y-%m-%d"`, whose only literal is `'-'`). -/
def splitDash : List Char → List (List Char)
  | [] => [[]]
  | '-' :: rest => [] :: splitDash rest
  | c :: rest =>
    match splitDash rest with
    | [] => [[c]]
    | h :: t => (c :: h) :: t

/-- Digits to a number (callers guarantee all characters are digits). -/
def digitsToNat (cs : List Char) : Nat :=
  cs.foldl (fun acc c => acc * 10 + (c.toNat - 48)) 0

/-- `datetime.strptime(s, "%Y-%m-%d")`, returning `none` where Python
raises `ValueError`.  CPython's `%Y` matches exactly four digits while
`%m` and `%d` leniently match one or two digits; the `datetime`
constructor then validates `1 <= month <= 12`, `1 <= day <= daysInMonth`
and `year >= 1`. -/
def parseFecha (s : String) : Option Fecha :=
  match splitDash s.data with
  | [ys, ms, ds] =>
    if ys.length = 4 ∧ ys.all Char.isDigit ∧
       1 ≤ ms.length ∧ ms.length ≤ 2 ∧ ms.all Char.isDigit ∧
       1 ≤ ds.length ∧ ds.length ≤ 2 ∧ ds.all Char.isDigit then
      let y := digitsToNat ys
      let m := digitsToNat ms
      let d := digitsToNat ds
      if 1 ≤ y ∧ 1 ≤ m ∧ m ≤ 12 ∧ 1 ≤ d ∧ d ≤ daysInMonth y m then
        some ⟨y, m, d⟩
      else none
    else none
  | _ => none

/-- Zero-pad a number to two digits (`strftime` `%m` / `%d`). -/
def pad2 (n : Nat) : String := if n < 10 then "0" ++ toString n else toString n

/-- Zero-pad a number to four digits (`strftime` `%Y`). -/
def pad4 (n : Nat) : String :=
  if n < 10 then "000" ++ toString n
  else if n < 100 then "00" ++ toString n
  else if n < 1000 then "0" ++ toString n
  else toString n

/-- `d.strftime("%Y-%m-%d")`. -/
def formatFecha (f : Fecha) : String := pad4 f.y ++ "-" ++ pad2 f.m ++ "-" ++ pad2 f.d

/-- Python `datetime` comparison `a < b` (lexicographic on
year, month, day). -/
def fechaLt (a b : Fecha) : Bool :=
  a.y < b.y || (a.y = b.y && (a.m < b.m || (a.m = b.m && a.d < b.d)))

/-- The reflexive order corresponding to `fechaLt`, used to state
"most recent date" properties. -/
def fechaLe (a b : Fecha) : Prop :=
  a.y < b.y ∨ (a.y = b.y ∧ (a.m < b.m ∨ (a.m = b.m ∧ a.d ≤ b.d)))

/-- Python `max(list)` seeded with the first element: later elements
replace the current maximum only when strictly greater. -/
def maxFecha (d0 : Fecha) (ds : List Fecha) : Fecha :=
  ds.foldl (fun acc x => if fechaLt acc x then x else acc) d0

/-! ## Dicts as association lists -/

/-- A value in a Python dict that mixes strings and lists of strings
(like the key-facts dict built by `preparar_datos_para_resumen`). -/
inductive Val where
  | s (v : String)
  | l (v : List String)
deriving DecidableEq, Repr

/-- Python `d[k] = v`: replace in place when the key is present
(keeping its position), else append at the end. -/
def dset {α : Type} (d : List (String × α)) (k : String) (v : α) :
    List (String × α) :=
  if (d.map Prod.fst).contains k then
    d.map (fun kv => if kv.1 = k then (k, v) else kv)
  else d ++ [(k, v)]

/-- A sequence of Python dict assignments (also the meaning of building
a dict literal, and of `d.update({...})`). -/
def dsets {α : Type} (d : List (String × α)) (ps : List (String × α)) :
    List (String × α) :=
  ps.foldl (fun acc kv => dset acc kv.1 kv.2) d

/-- Python `d.get(k, default)`. -/
def dgetD {α : Type} (d : List (String × α)) (k : String) (dflt : α) : α :=
  (List.lookup k d).getD dflt

/-- Two-level `d.get(sec, {}).get(fld, dflt)` access into the modal data. -/
def dget2 (m : List (String × List (String × String))) (sec fld dflt : String) :
    String :=
  (List.lookup fld (dgetD m sec [])).getD dflt

/-! ## Data model -/

/-- One medication line of the management plan, as assembled by
`procesar_plan_de_manejo`, which always sets all four keys. -/
structure Formula where
  fecha : String
  medicamento : String
  cantidad : String
  estado : String
deriving DecidableEq, Repr

/-- The `plan_de_manejo` sub-dictionary of a patient record. -/
structure Plan where
  ordenes_de_servicio : List (List (String × String))
  formulas_medicas : List Formula
deriving DecidableEq, Repr

/-- One clinical encounter, as appended by
`capturar_y_procesar_historia`. -/
structure Encuentro where
  actividad_encuentro : String
  sub_actividad_encuentro : String
  profesional_encuentro : String
  fecha_hora_encuentro : String
  datos_del_modal : List (String × List (String × String))
deriving DecidableEq, Repr

/-- A patient record with the fixed shape built in `main`. -/
structure Paciente where
  nombre : String
  cedula : String
  historia_medico : List Encuentro
  historia_qf : List Encuentro
  plan_de_manejo : Plan
deriving DecidableEq, Repr

/-! ## `SIGLAS_MEDICAMENTOS` and medication canonicalization -/

/-- The fixed substance-to-abbreviation table (a Python dict; iteration
follows insertion order and keys are unique). -/
def SIGLAS_MEDICAMENTOS : List (String × String) :=
  [ ("Abacavir", "ABC"),
    ("Zidovudina", "AZT/2DV"),
    ("Lamivudina", "3TC"),
    ("Emtricitabina", "FTC"),
    ("Tenofovir Alafenamida", "TAF"),
    ("Tenofovir desoxoribosa", "TDF"),
    ("Tenofovir fumarato", "TDF"),
    ("Efavirenz", "EFV"),
    ("Etravirina", "ETR"),
    ("Rilpivirina", "RPV"),
    ("Nevirapina", "NVP"),
    ("Dolutegravir", "DTG"),
    ("Raltegravir", "RAL"),
    ("Elvitegravir", "EVG"),
    ("Cobicistat", "COBI"),
    ("Maraviroc", "MVC"),
    ("Didanosina", "DDI"),
    ("Bictegravir", "BIC"),
    ("Fosamprenavir", "FPV/r"),
    ("Ritonavir", "DRV/r"),
    ("Darunavir", "DRV/r"),
    ("Atazanavir", "ATV/r"),
    ("Doravirina", "DOR/C") ]

/-- The body of the `for f in formulas` loop of `mapear_siglas_med`:
exact lookup of the stripped name first, then the first table key whose
lowered name occurs in the lowered stripped name.  (All table values are
non-empty, so Python's truthiness tests on `sigla` coincide with
`Option.isSome`.) -/
def mapearStep (f : Formula) : Formula :=
  let nombre := pyStrip f.medicamento
  let sigla : Option String :=
    match List.lookup nombre SIGLAS_MEDICAMENTOS with
    | some v => some v
    | none =>
      (SIGLAS_MEDICAMENTOS.find? (fun kv => pyIn (pyLower kv.1) (pyLower nombre))).map
        Prod.snd
  match sigla with
  | some v => { f with medicamento := v }
  | none => f

/-- `mapear_siglas_med` (the in-place update of the list, as the list it
leaves behind). -/
def mapear_siglas_med (formulas : List Formula) : List Formula :=
  formulas.map mapearStep

/-! ## `filtrar_formulas_recientes` -/

/-- The list comprehension `[datetime.strptime(f["fecha"], "%Y-%m-%d")
for f in formulas]`: `none` when any entry raises `ValueError`. -/
def parseFechas : List Formula → Option (List Fecha)
  | [] => some []
  | f :: fs =>
    match parseFecha f.fecha, parseFechas fs with
    | some d, some ds => some (d :: ds)
    | _, _ => none

/-- `filtrar_formulas_recientes(plan_de_manejo)`.  The pair is (returned
value, the `plan_de_manejo` dict after the call): `none` models the
exception raised while parsing the dates, which happens before the
in-place assignment. -/
def filtrar_formulas_recientes (plan : Plan) : Option (List Formula) × Plan :=
  let formulas := plan.formulas_medicas
  if formulas.isEmpty then (some [], { plan with formulas_medicas := [] })
  else
    match parseFechas formulas with
    | none => (none, plan)
    | some ds =>
      match ds with
      | [] => (none, plan)  -- unreachable: `parseFechas` preserves length
      | d0 :: rest =>
        let fechaMax := formatFecha (maxFecha d0 rest)
        let ultimas := formulas.filter (fun f =>
          f.fecha = fechaMax ∧ pyUpper f.medicamento ≠ "PRESERVATIVO MASCULINO")
        (some ultimas, { plan with formulas_medicas := ultimas })

/-! ## HTML fragments and `extraer_secciones_modal` -/

/-- A rendered HTML node: an element with tag name, `class` tokens and
children, or a text node.  This is the tree BeautifulSoup produces from
the modal's `innerHTML`. -/
inductive HNode where
  | el (tag : String) (classes : List String) (children : List HNode)
  | txt (s : String)
deriving Repr

/-- `soup.find_all(tag, class_=cls)` matching: tag equality plus, when a
class is requested, membership in the `class` token list. -/
def hMatches (tag : String) (cls : Option String) : HNode → Bool
  | .el t cs _ => t = tag && (match cls with
      | none => true
      | some c => cs.contains c)
  | .txt _ => false

mutual

/-- All descendant nodes (document order) of the nodes in a list that
satisfy `p`: the recursion behind `find_all` / `find`. -/
def descendList (p : HNode → Bool) : List HNode → List HNode
  | [] => []
  | n :: rest => (if p n then [n] else []) ++ descendNode p n ++ descendList p rest

/-- All proper descendants of one node that satisfy `p`. -/
def descendNode (p : HNode → Bool) : HNode → List HNode
  | .el _ _ ch => descendList p ch
  | .txt _ => []

end

/-- `element.find_all(tag, class_=cls)` (descendants only). -/
def findAllIn (tag : String) (cls : Option String) (n : HNode) : List HNode :=
  descendNode (hMatches tag cls) n

/-- `element.find(tag, class_=cls)`: first descendant in document order. -/
def findIn (tag : String) (cls : Option String) (n : HNode) : Option HNode :=
  (descendNode (hMatches tag cls) n).head?

mutual

/-- The text-node strings below a list of nodes, in document order. -/
def textsOfList : List HNode → List String
  | [] => []
  | n :: rest => textsOfNode n ++ textsOfList rest

/-- The text-node strings below one node. -/
def textsOfNode : HNode → List String
  | .el _ _ ch => textsOfList ch
  | .txt s => [s]

end

/-- `element.get_text(separator=sep, strip=True)`: strip every string
descendant, drop the ones that become empty, join with `sep`. -/
def getTextStrip (sep : String) (n : HNode) : String :=
  pyJoin sep (((textsOfNode n).map pyStrip).filter (fun s => ¬ s = ""))

/-- The label normalization applied inside `extraer_secciones_modal`. -/
def normLabel (label : String) : String :=
  if label = "Fecha de diagnóstico" ∨ label = "Fecha diagnóstico" then
    "Fecha de diagnóstico"
  else if pyStarts (pyLower label) "estadio clínico" then "Estadio Clínico"
  else if pyIn "hábitos" (pyLower label) then
    (if pyIn "aliment" (pyLower label) then "Hábitos Alimenticios"
     else "Hábitos Toxicológicos")
  else label

/-- The value of one field: the placeholder's rendered text with internal
whitespace collapsed, or the sentinel when it renders empty (Python's
`or "No especificado"` on the falsy empty string). -/
def valorDe (valorEl : HNode) : String :=
  let v := pyJoin " " (pySplitWs (getTextStrip " " valorEl))
  if v = "" then "No especificado" else v

/-- The label/value pair of one `filament-forms-field-wrapper`, when both
sub-elements exist. -/
def campoPar (campo : HNode) : Option (String × String) :=
  match findIn "label" none campo,
        findIn "div" (some "filament-forms-placeholder-component") campo with
  | some labelEl, some valorEl =>
    some (normLabel (getTextStrip "" labelEl), valorDe valorEl)
  | _, _ => none

/-- The inner loop of `extraer_secciones_modal` over the
`filament-forms-field-wrapper` blocks of one section: the inner dict for
that section, built key by key. -/
def camposFold (seccion : HNode) : List (String × String) :=
  (findAllIn "div" (some "filament-forms-field-wrapper") seccion).foldl
    (fun din campo =>
      match campoPar campo with
      | some kv => dset din kv.1 kv.2
      | none => din) []

/-- `extraer_secciones_modal(modal_html)`.  The fragment is the node list
BeautifulSoup parses from the modal's `innerHTML`.  Python resets
`secciones_data[titulo] = {}` and then fills that inner dict key by key
before the next section starts, which is the same as building the inner
dict (`camposFold`) first and assigning it once. -/
def extraer_secciones_modal (frag : List HNode) : List (String × List (String × String)) :=
  (descendList (hMatches "div" (some "filament-forms-section-component")) frag).foldl
    (fun acc seccion =>
      match findIn "h3" (some "pointer-events-none") seccion with
      | none => acc
      | some header => dset acc (getTextStrip "" header) (camposFold seccion)) []

/-! ## Most-recent-encounter selection and `preparar_datos_para_resumen` -/

/-- Python string comparison `a < b` (lexicographic by code point). -/
def lexLt : List Char → List Char → Bool
  | [], [] => false
  | [], _ :: _ => true
  | _ :: _, [] => false
  | a :: as, b :: bs =>
    if a.toNat < b.toNat then true
    else if b.toNat < a.toNat then false
    else lexLt as bs

/-- Python string comparison `a <= b`. -/
def pyStrLe (a b : String) : Bool := ! lexLt b.data a.data

/-- Stable insertion of `x` in front of the first element it may precede. -/
def insStable {α : Type} (le : α → α → Bool) (x : α) : List α → List α
  | [] => [x]
  | y :: ys => if le x y then x :: y :: ys else y :: insStable le x ys

/-- A stable sort.  Python's `sorted` is stable, and a stable sort is
extensionally determined by the (total) comparison, so this insertion
sort computes exactly `sorted(l, key=..., reverse=True)` when `le` is
the reversed key comparison. -/
def stableSort {α : Type} (le : α → α → Bool) : List α → List α
  | [] => []
  | x :: xs => insStable le x (stableSort le xs)

/-- `sorted(encuentros, key=lambda x: x["fecha_hora_encuentro"],
reverse=True)[0]` — `none` on the empty list, where Python would raise
`IndexError` (both call sites guard for non-emptiness first). -/
def seleccionarReciente (l : List Encuentro) : Option Encuentro :=
  (stableSort (fun a b => pyStrLe b.fecha_hora_encuentro a.fecha_hora_encuentro) l).head?

/-- The fixed key-facts dict literal of `preparar_datos_para_resumen`,
in source order.  `"fecha_impresion"` appears twice in the Python
literal; the second occurrence overwrites the first (keeping its
position), which `dsets` reproduces. -/
def datosClaveBase (today : String) (p : Paciente) : List (String × Val) :=
  dsets []
    [ ("nombre_paciente", .s p.nombre),
      ("documento_id", .s p.cedula),
      ("tipo_documento_id", .s "CC"),
      ("fecha_impresion", .s today),
      ("fecha_diagnostico", .s ""),
      ("estadio_clinico", .s ""),
      ("antecedentes_patologicos", .s ""),
      ("antecedentes_farmacologicos", .s ""),
      ("antecedentes_quirurgicos", .s ""),
      ("lista_medicamentos", .l []),
      ("tipo_intervencion", .s ""),
      ("medico_enfermedad_actual", .s ""),
      ("medico_resumen_e_intervenciones", .s ""),
      ("quimico_seguimiento_farmacoterapeutico", .s ""),
      ("fecha_impresion", .s ""),
      ("modalidad_intervencion", .s ""),
      ("diagnostico_principal", .s ""),
      ("antecedentes_actuales", .s ""),
      ("paciente_sexo", .s ""),
      ("paciente_edad", .s ""),
      ("otros_medicamentos", .s ""),
      ("alergias", .s ""),
      ("habitos_alimenticios", .s ""),
      ("habitos_toxicos", .s ""),
      ("hospitalizaciones_recientes", .s ""),
      ("fecha_paraclinico", .s ""),
      ("cv_paraclinico", .s ""),
      ("cd4_paraclinico", .s ""),
      ("profilaxis_antibiotica", .s ""),
      ("metas_terapeuticas", .s ""),
      ("medicamento_necesario", .s ""),
      ("medicamento_efectivo", .s ""),
      ("medicamento_seguro", .s ""),
      ("interacciones", .s ""),
      ("genotipo", .s ""),
      ("fecha_dispensacion", .s ""),
      ("modalidad_dispensacion", .s ""),
      ("adherencia_test", .s ""),
      ("tolerancia_test", .s ""),
      ("concepto_qf", .s ""),
      ("sugerencia_horarios", .l []) ]

/-- The `datos_clave.update({...})` taken from the most recent medical
encounter. -/
def updateMedico (d : List (String × Val)) (u : Encuentro) : List (String × Val) :=
  let modMed := u.datos_del_modal
  dsets d
    [ ("fecha_diagnostico", .s (dget2 modMed "Enfermedad Actual" "Fecha de diagnóstico" "")),
      ("estadio_clinico", .s (dget2 modMed "Enfermedad Actual" "Estadio Clínico" "")),
      ("antecedentes_patologicos", .s (dget2 modMed "Antecedentes Médicos" "Patológicos" "")),
      ("antecedentes_farmacologicos", .s (dget2 modMed "Antecedentes Médicos" "Farmacológicos" "")),
      ("antecedentes_quirurgicos", .s (dget2 modMed "Antecedentes Médicos" "Quirúrgicos" "")),
      ("medico_enfermedad_actual", .s (dget2 modMed "Enfermedad Actual" "Enfermedad Actual" "")),
      ("medico_resumen_e_intervenciones", .s (dget2 modMed "Resumen e Intervenciones" "Acciones" "")) ]

/-- The `datos_clave.update({...})` taken from the most recent
pharmacological encounter (and the already filtered and canonicalized
prescription list). -/
def updateQF (today : String) (d : List (String × Val)) (u : Encuentro) (p : Paciente) :
    List (String × Val) :=
  let modQF := u.datos_del_modal
  dsets d
    [ ("lista_medicamentos", .l (p.plan_de_manejo.formulas_medicas.map (fun f =>
        "medicamento: " ++ f.medicamento ++ ", cantidad: " ++ f.cantidad ++
        ", fecha inicio: " ++ f.fecha))),
      ("tipo_intervencion",
        .s (dget2 modQF "Seguimiento Farmacoterapéutico" "Tipo de intervención" "PRESENCIAL")),
      ("modalidad_intervencion",
        .s (dget2 modQF "Seguimiento Farmacoterapéutico" "Modalidad de intervención" today)),
      ("quimico_seguimiento_farmacoterapeutico",
        .s (dget2 modQF "Seguimiento Farmacoterapéutico" "Descripción de la intervención" "")) ]

/-- `preparar_datos_para_resumen(datos_paciente)`.  `today` abstracts
`date.today().strftime("%Y-%m-%d")`. -/
def preparar_datos_para_resumen (today : String) (p : Paciente) : List (String × Val) :=
  let base := datosClaveBase today p
  let d1 :=
    if p.historia_medico.isEmpty then base
    else
      match seleccionarReciente p.historia_medico with
      | some u => updateMedico base u
      | none => base
  if p.historia_qf.isEmpty then d1
  else
    match seleccionarReciente p.historia_qf with
    | some u => updateQF today d1 u p
    | none => d1

/-! ## Encounter-row classification (`capturar_y_procesar_historia`) -/

/-- The professional kind an encounter row is filed under. -/
inductive TipoProf where
  | medico
  | quimico_farmaceutico
deriving DecidableEq, Repr

/-- One encounter row of the history table: the four text columns, the
presence of the 'Vista' button, and the modal fragment behind it. -/
structure FilaEncuentro where
  columnas : List String
  tieneVista : Bool
  modalHtml : List HNode

/-- `columnas[i].text` (the loop only reads columns of rows with at
least four columns, so the default is never used there). -/
def colD (cols : List String) (i : Nat) : String := cols.getD i ""

/-- The per-row body of the loop in `capturar_y_procesar_historia`:
`sub_actividad = columnas[1].text.strip().upper()`, then the substring
classification; rows with fewer than four columns, rows matching neither
substring rule and rows without a 'Vista' button are skipped (`none`)
and no modal is opened for them. -/
def procesarFila (fila : FilaEncuentro) : Option (TipoProf × Encuentro) :=
  if fila.columnas.length < 4 then none
  else
    let subActividad := pyUpper (pyStrip (colD fila.columnas 1))
    let esMedico := pyIn "MEDICO" subActividad
    let esQuimico := pyIn "FARMACOTERAPÉUTICO" subActividad || pyIn "QUIMICO" subActividad
    if esMedico || esQuimico then
      if ¬ fila.tieneVista then none
      else
        let tipo := if esMedico then TipoProf.medico else TipoProf.quimico_farmaceutico
        some (tipo,
          { actividad_encuentro := pyStrip (colD fila.columnas 0),
            sub_actividad_encuentro := pyStrip (colD fila.columnas 1),
            profesional_encuentro := pyStrip (colD fila.columnas 2),
            fecha_hora_encuentro := pyStrip (colD fila.columnas 3),
            datos_del_modal := extraer_secciones_modal fila.modalHtml })
    else none

/-- `capturar_y_procesar_historia`: fold the row loop over the patient
record, appending each captured encounter to the matching history list. -/
def capturar_y_procesar_historia (filas : List FilaEncuentro) (p : Paciente) : Paciente :=
  filas.foldl
    (fun acc fila =>
      match procesarFila fila with
      | some (.medico, e) => { acc with historia_medico := acc.historia_medico ++ [e] }
      | some (.quimico_farmaceutico, e) =>
        { acc with historia_qf := acc.historia_qf ++ [e] }
      | none => acc) p

/-! ## `resumir_paciente` and `resumir_paciente_con_bedrock` -/

/-- `resumir_paciente` (the local-model path), with the raw generated
text abstracted as `generado`: the decoded output is stripped and then
truncated to `max_chars` characters. -/
def resumir_paciente (cedula generado : String) (max_chars : Nat := 500) :
    String × String :=
  (cedula, pyTake (pyStrip generado) max_chars)

/-- Index of the first `'{'` in a character list. -/
def idxOpenBrace : List Char → Option Nat
  | [] => none
  | c :: rest =>
    if c = '{' then some 0
    else (idxOpenBrace rest).map Nat.succ

/-- Index of the last `'}'` in a character list. -/
def idxCloseBrace : List Char → Option Nat
  | [] => none
  | c :: rest =>
    match idxCloseBrace rest with
    | some j => some (j + 1)
    | none => if c = '}' then some 0 else none

/-- `re.search(r"\{.*\}", texto, re.DOTALL)`: with a greedy `.*` under
DOTALL this matches from the first `'{'` to the last `'}'`, provided a
`'}'` occurs after the first `'{'`. -/
def extractJson (texto : String) : Option String :=
  match idxOpenBrace texto.data, idxCloseBrace texto.data with
  | some i, some j =>
    if i < j then some ⟨(texto.data.drop i).take (j - i + 1)⟩ else none
  | _, _ => none

/-- The fallback `concepto_qf` diagnostic written by
`resumir_paciente_con_bedrock` when no JSON object can be recovered. -/
def conceptoError (e respuesta : String) : String :=
  "ERROR CRÍTICO: No se pudo generar el resumen con IA. Error: " ++ e ++
    ". Respuesta recibida: " ++ pyTake respuesta 500

/-- `resumir_paciente_con_bedrock`, with the Bedrock transport and
`json.loads` abstracted: `respuesta` is the raw model text and `jparse`
parses a JSON fragment into a field dict (`Except.error` carries the
`JSONDecodeError` message).  The returned dict is the merged
`datos_finales`. -/
def resumir_paciente_con_bedrock
    (jparse : String → Except String (List (String × Val)))
    (today : String) (p : Paciente) (respuesta : String) : List (String × Val) :=
  let datosPreparados := preparar_datos_para_resumen today p
  match extractJson respuesta with
  | none =>
    dset datosPreparados "concepto_qf"
      (.s (conceptoError "No se encontró un objeto JSON en la respuesta de la IA." respuesta))
  | some fragment =>
    match jparse fragment with
    | .error e => dset datosPreparados "concepto_qf" (.s (conceptoError e respuesta))
    | .ok rellenados => dsets datosPreparados rellenados

/-- The fixed key set of the key-facts dict (first-occurrence order of
the Python literal). -/
def clavesDatosClave : List String :=
  [ "nombre_paciente", "documento_id", "tipo_documento_id", "fecha_impresion",
    "fecha_diagnostico", "estadio_clinico", "antecedentes_patologicos",
    "antecedentes_farmacologicos", "antecedentes_quirurgicos",
    "lista_medicamentos", "tipo_intervencion", "medico_enfermedad_actual",
    "medico_resumen_e_intervenciones", "quimico_seguimiento_farmacoterapeutico",
    "modalidad_intervencion", "diagnostico_principal", "antecedentes_actuales",
    "paciente_sexo", "paciente_edad", "otros_medicamentos", "alergias",
    "habitos_alimenticios", "habitos_toxicos", "hospitalizaciones_recientes",
    "fecha_paraclinico", "cv_paraclinico", "cd4_paraclinico",
    "profilaxis_antibiotica", "metas_terapeuticas", "medicamento_necesario",
    "medicamento_efectivo", "medicamento_seguro", "interacciones", "genotipo",
    "fecha_dispensacion", "modalidad_dispensacion", "adherencia_test",
    "tolerancia_test", "concepto_qf", "sugerencia_horarios" ]

/-! ## Basic dictionary lemmas -/

theorem lookup_cons' {α : Type} (k a : String) (b : α) (es : List (String × α)) :
    List.lookup k ((a, b) :: es) = if k = a then some b else List.lookup k es := by
  by_cases h : k = a
  · subst h; simp [List.lookup]
  · have hb : (k == a) = false := by simpa using h
    simp [List.lookup, hb, h]

theorem lookup_mapReplace_self {α : Type} (d : List (String × α)) (k : String) (v : α)
    (hmem : (d.map Prod.fst).contains k) :
    List.lookup k (d.map (fun kv => if kv.1 = k then (k, v) else kv)) = some v := by
  induction d with
  | nil => simp at hmem
  | cons kv rest ih =>
    simp only [List.map_cons, List.contains_cons, Bool.or_eq_true, beq_iff_eq] at hmem
    by_cases hk : kv.1 = k
    · simp only [List.map_cons, if_pos hk]
      rw [lookup_cons', if_pos rfl]
    · simp only [List.map_cons, if_neg hk]
      obtain ⟨a, b⟩ := kv
      rw [lookup_cons', if_neg (by simpa using fun he => hk he.symm)]
      rcases hmem with h | h
      · exact absurd h.symm hk
      · exact ih (by simpa using h)

theorem lookup_mapReplace_ne {α : Type} (d : List (String × α)) (k k' : String) (v : α)
    (h : k' ≠ k) :
    List.lookup k' (d.map (fun kv => if kv.1 = k then (k, v) else kv)) =
      List.lookup k' d := by
  induction d with
  | nil => simp
  | cons kv rest ih =>
    obtain ⟨a, b⟩ := kv
    by_cases hk : a = k
    · simp only [List.map_cons, hk, if_pos rfl]
      rw [lookup_cons', lookup_cons', if_neg h, if_neg (hk ▸ h), ih]
    · simp only [List.map_cons, if_neg hk]
      rw [lookup_cons', lookup_cons', ih]

theorem lookup_append_single_self {α : Type} (d : List (String × α)) (k : String) (v : α)
    (hmem : ¬ (d.map Prod.fst).contains k) :
    List.lookup k (d ++ [(k, v)]) = some v := by
  induction d with
  | nil => simp [List.lookup]
  | cons kv rest ih =>
    obtain ⟨a, b⟩ := kv
    simp only [List.map_cons, List.contains_cons, Bool.or_eq_true, beq_iff_eq, not_or] at hmem
    rw [List.cons_append, lookup_cons', if_neg hmem.1]
    exact ih (by simpa using hmem.2)

theorem lookup_append_single_ne {α : Type} (d : List (String × α)) (k k' : String) (v : α)
    (h : k' ≠ k) : List.lookup k' (d ++ [(k, v)]) = List.lookup k' d := by
  induction d with
  | nil =>
    have hb : (k' == k) = false := by simpa using h
    simp [List.lookup, hb]
  | cons kv rest ih =>
    obtain ⟨a, b⟩ := kv
    rw [List.cons_append, lookup_cons', lookup_cons', ih]

theorem lookup_dset_self {α : Type} (d : List (String × α)) (k : String) (v : α) :
    List.lookup k (dset d k v) = some v := by
  unfold dset
  split
  · next hmem => exact lookup_mapReplace_self d k v hmem
  · next hmem => exact lookup_append_single_self d k v hmem

theorem lookup_dset_ne {α : Type} (d : List (String × α)) (k k' : String) (v : α)
    (h : k' ≠ k) : List.lookup k' (dset d k v) = List.lookup k' d := by
  unfold dset
  split
  · exact lookup_mapReplace_ne d k k' v h
  · exact lookup_append_single_ne d k k' v h

/-- `dset` with a fresh key appends. -/
theorem dset_fresh {α : Type} (d : List (String × α)) (k : String) (v : α)
    (h : ¬ (d.map Prod.fst).contains k) : dset d k v = d ++ [(k, v)] := by
  unfold dset
  rw [if_neg h]

/-! ## C5: label canonicalization is idempotent -/

/-- **C5.** Label canonicalization is idempotent: applying the
normalization rules of `extraer_secciones_modal` (the
`Fecha de diagnóstico` variants, the `estadio clínico` case-insensitive
head match, and the `hábitos` containment with the nutrition-term
split) to an already-normalized label returns it unchanged:
`normLabel (normLabel s) = normLabel s` for every label `s`. -/
theorem normLabel_idempotente (s : String) : normLabel (normLabel s) = normLabel s := by
  by_cases h1 : s = "Fecha de diagnóstico" ∨ s = "Fecha diagnóstico"
  · have h : normLabel s = "Fecha de diagnóstico" := by
      unfold normLabel; rw [if_pos h1]
    rw [h]; decide
  · by_cases h2 : pyStarts (pyLower s) "estadio clínico" = true
    · have h : normLabel s = "Estadio Clínico" := by
        unfold normLabel; rw [if_neg h1, if_pos h2]
      rw [h]; decide
    · by_cases h3 : pyIn "hábitos" (pyLower s) = true
      · by_cases h4 : pyIn "aliment" (pyLower s) = true
        · have h : normLabel s = "Hábitos Alimenticios" := by
            unfold normLabel
            rw [if_neg h1, if_neg h2, if_pos h3, if_pos h4]
          rw [h]; decide
        · have h : normLabel s = "Hábitos Toxicológicos" := by
            unfold normLabel
            rw [if_neg h1, if_neg h2, if_pos h3, if_neg h4]
          rw [h]; decide
      · have h : normLabel s = s := by
          unfold normLabel
          rw [if_neg h1, if_neg h2, if_neg h3]
        rw [h]; exact h

/-! ## Date-order lemmas -/

theorem fechaLt_iff (a b : Fecha) :
    fechaLt a b = true ↔
      a.y < b.y ∨ (a.y = b.y ∧ (a.m < b.m ∨ (a.m = b.m ∧ a.d < b.d))) := by
  simp [fechaLt]

theorem fechaLe_refl (a : Fecha) : fechaLe a a := by unfold fechaLe; omega

theorem fechaLe_trans {a b c : Fecha} (h1 : fechaLe a b) (h2 : fechaLe b c) :
    fechaLe a c := by
  unfold fechaLe at h1 h2 ⊢; omega

theorem fechaLe_of_lt {a b : Fecha} (h : fechaLt a b = true) : fechaLe a b := by
  rw [fechaLt_iff] at h; unfold fechaLe; omega

theorem fechaLe_of_not_lt {a b : Fecha} (h : fechaLt a b = false) : fechaLe b a := by
  have h' : ¬ (a.y < b.y ∨ (a.y = b.y ∧ (a.m < b.m ∨ (a.m = b.m ∧ a.d < b.d)))) := by
    rw [← fechaLt_iff, h]; simp
  unfold fechaLe; omega

theorem maxFecha_cons (d0 x : Fecha) (xs : List Fecha) :
    maxFecha d0 (x :: xs) = maxFecha (if fechaLt d0 x then x else d0) xs := rfl

theorem maxFecha_mem (d0 : Fecha) (ds : List Fecha) :
    maxFecha d0 ds = d0 ∨ maxFecha d0 ds ∈ ds := by
  induction ds generalizing d0 with
  | nil => left; rfl
  | cons x xs ih =>
    rw [maxFecha_cons]
    rcases ih (if fechaLt d0 x then x else d0) with h | h
    · rw [h]; split
      · right; exact List.mem_cons_self _ _
      · left; rfl
    · right; exact List.mem_cons_of_mem _ h

theorem maxFecha_ge (d0 : Fecha) (ds : List Fecha) :
    fechaLe d0 (maxFecha d0 ds) ∧ ∀ x ∈ ds, fechaLe x (maxFecha d0 ds) := by
  induction ds generalizing d0 with
  | nil => exact ⟨fechaLe_refl d0, by simp⟩
  | cons y ys ih =>
    rw [maxFecha_cons]
    obtain ⟨h1, h2⟩ := ih (if fechaLt d0 y then y else d0)
    have hd0 : fechaLe d0 (if fechaLt d0 y then y else d0) := by
      split
      · next h => exact fechaLe_of_lt h
      · exact fechaLe_refl d0
    have hy : fechaLe y (if fechaLt d0 y then y else d0) := by
      split
      · exact fechaLe_refl y
      · next h => exact fechaLe_of_not_lt (by simpa using h)
    refine ⟨fechaLe_trans hd0 h1, ?_⟩
    intro x hx
    rcases List.mem_cons.mp hx with rfl | hx
    · exact fechaLe_trans hy h1
    · exact h2 x hx

/-! ## `parseFechas` lemmas -/

/-- The parsed date of a prescription (total version; callers establish
that parsing succeeds). -/
def fechaDe (f : Formula) : Fecha := (parseFecha f.fecha).getD ⟨0, 0, 0⟩

theorem parseFechas_none {fs : List Formula} {f : Formula} (hf : f ∈ fs)
    (h : parseFecha f.fecha = none) : parseFechas fs = none := by
  induction fs with
  | nil => simp at hf
  | cons g gs ih =>
    rcases List.mem_cons.mp hf with rfl | hf
    · simp [parseFechas, h]
    · unfold parseFechas
      rw [ih hf]
      cases parseFecha g.fecha <;> rfl

theorem parseFechas_all {fs : List Formula}
    (h : ∀ f ∈ fs, parseFecha f.fecha ≠ none) :
    parseFechas fs = some (fs.map fechaDe) := by
  induction fs with
  | nil => rfl
  | cons g gs ih =>
    have hg := h g (List.mem_cons_self g gs)
    obtain ⟨d, hd⟩ := Option.ne_none_iff_exists'.mp hg
    unfold parseFechas
    rw [hd, ih (fun f hf => h f (List.mem_cons_of_mem _ hf))]
    simp [fechaDe, hd]

/-! ## C10: unparseable dates raise before any mutation -/

/-- **C10.** If any entry of a non-empty `formulas_medicas` list has a
`fecha` that `datetime.strptime(_, "%Y-%m-%d")` rejects, then
`filtrar_formulas_recientes` raises (`none`) while the date list is
being built, before the in-place assignment: the returned pair carries
no result and the `plan_de_manejo` dict is exactly the input
(atomicity on error). -/
theorem filtrar_excepcion_atomica (plan : Plan) (f : Formula)
    (hf : f ∈ plan.formulas_medicas) (hbad : parseFecha f.fecha = none) :
    filtrar_formulas_recientes plan = (none, plan) := by
  have hne : plan.formulas_medicas.isEmpty = false := by
    cases h : plan.formulas_medicas
    · rw [h] at hf; simp at hf
    · simp [h]
  have hp := parseFechas_none hf hbad
  simp [filtrar_formulas_recientes, hne, hp]

/-- Witness for C10 at a concrete plan whose only entry has an
unparseable date. -/
theorem filtrar_excepcion_atomica_witness :
    filtrar_formulas_recientes ⟨[], [⟨"fecha mala", "X", "1", "V"⟩]⟩ =
      (none, ⟨[], [⟨"fecha mala", "X", "1", "V"⟩]⟩) :=
  filtrar_excepcion_atomica _ ⟨"fecha mala", "X", "1", "V"⟩ (by decide) (by decide)

/-! ## C1: filtering keeps exactly the latest-date prescriptions -/

/-- Claim-side description (spec §4.3 / §8): the prescriptions whose
(parsed) date is the maximum date present, minus the excluded consumable
under case-insensitive comparison, in their original order. -/
def formulasDelDiaMax (fs : List Formula) (dmax : Fecha) : List Formula :=
  fs.filter (fun f =>
    parseFecha f.fecha = some dmax ∧ pyUpper f.medicamento ≠ "PRESERVATIVO MASCULINO")

/-- **C1 (amended).**  For the empty list `filtrar_formulas_recientes`
returns the empty list.  For a non-empty prescription list all of whose
`fecha` strings are canonically formatted (they parse, and re-formatting
the parsed date gives the string back — i.e. zero-padded `YYYY-MM-DD`),
the function returns exactly the prescriptions whose date is the maximum
date present, minus every entry whose `medicamento` equals
`'PRESERVATIVO MASCULINO'` case-insensitively, preserving their original
order (the output is a `filter` of the input), and stores the same list
in the plan.  The canonicity hypothesis is forced by the counterexample
`filtrar_formulas_recientes_cex`: Python's lenient `%m`/`%d` parsing
accepts non-padded dates, which the string-equality filter then drops. -/
theorem filtrar_formulas_recientes_spec (plan : Plan) :
    (plan.formulas_medicas = [] →
      filtrar_formulas_recientes plan = (some [], { plan with formulas_medicas := [] })) ∧
    (∀ f0 fr, plan.formulas_medicas = f0 :: fr →
      (∀ f ∈ plan.formulas_medicas,
        ∃ d, parseFecha f.fecha = some d ∧ formatFecha d = f.fecha) →
      ∃ dmax,
        (∃ g ∈ plan.formulas_medicas, parseFecha g.fecha = some dmax) ∧
        (∀ g ∈ plan.formulas_medicas, ∀ d, parseFecha g.fecha = some d → fechaLe d dmax) ∧
        filtrar_formulas_recientes plan =
          (some (formulasDelDiaMax plan.formulas_medicas dmax),
           { plan with formulas_medicas := formulasDelDiaMax plan.formulas_medicas dmax })) := by
  constructor
  · intro h
    simp [filtrar_formulas_recientes, h]
  · intro f0 fr hfs hcanon
    have hparse : ∀ f ∈ plan.formulas_medicas, parseFecha f.fecha = some (fechaDe f) := by
      intro f hf
      obtain ⟨d, hd, _⟩ := hcanon f hf
      rw [hd]; simp [fechaDe, hd]
    have hall : ∀ f ∈ plan.formulas_medicas, parseFecha f.fecha ≠ none := by
      intro f hf
      rw [hparse f hf]; simp
    have hp := parseFechas_all hall
    rw [hfs] at hp
    refine ⟨maxFecha (fechaDe f0) (fr.map fechaDe), ?_, ?_, ?_⟩
    · rcases maxFecha_mem (fechaDe f0) (fr.map fechaDe) with h | h
      · refine ⟨f0, by rw [hfs]; exact List.mem_cons_self _ _, ?_⟩
        rw [h]
        exact hparse f0 (by rw [hfs]; exact List.mem_cons_self _ _)
      · obtain ⟨g, hg, hgd⟩ := List.mem_map.mp h
        refine ⟨g, by rw [hfs]; exact List.mem_cons_of_mem _ hg, ?_⟩
        rw [← hgd]
        exact hparse g (by rw [hfs]; exact List.mem_cons_of_mem _ hg)
    · intro g hg d hd
      have hgd : d = fechaDe g := by
        have := hparse g hg
        rw [this] at hd
        exact (Option.some_inj.mp hd).symm
      subst hgd
      rw [hfs] at hg
      rcases List.mem_cons.mp hg with rfl | hg
      · exact (maxFecha_ge (fechaDe g) (fr.map fechaDe)).1
      · exact (maxFecha_ge (fechaDe f0) (fr.map fechaDe)).2 _
          (List.mem_map_of_mem fechaDe hg)
    · -- the maximum's formatted form is the fecha of a member
      have hmaxmem : ∃ g ∈ plan.formulas_medicas,
          parseFecha g.fecha = some (maxFecha (fechaDe f0) (fr.map fechaDe)) ∧
          formatFecha (maxFecha (fechaDe f0) (fr.map fechaDe)) = g.fecha := by
        rcases maxFecha_mem (fechaDe f0) (fr.map fechaDe) with h | h
        · have hf0 : f0 ∈ plan.formulas_medicas := by
            rw [hfs]; exact List.mem_cons_self _ _
          obtain ⟨d, hd, hfmt⟩ := hcanon f0 hf0
          have : d = fechaDe f0 := by
            rw [hparse f0 hf0] at hd
            exact (Option.some_inj.mp hd).symm
          subst this
          exact ⟨f0, hf0, by rw [h]; exact hparse f0 hf0, by rw [h]; exact hfmt⟩
        · obtain ⟨g, hg, hgd⟩ := List.mem_map.mp h
          have hgmem : g ∈ plan.formulas_medicas := by
            rw [hfs]; exact List.mem_cons_of_mem _ hg
          obtain ⟨d, hd, hfmt⟩ := hcanon g hgmem
          have : d = fechaDe g := by
            rw [hparse g hgmem] at hd
            exact (Option.some_inj.mp hd).symm
          subst this
          exact ⟨g, hgmem, by rw [← hgd]; exact hparse g hgmem,
            by rw [← hgd]; exact hfmt⟩
      obtain ⟨gmax, hgmaxmem, hgmaxparse, hgmaxfmt⟩ := hmaxmem
      have hfilter : plan.formulas_medicas.filter (fun f =>
            f.fecha = formatFecha (maxFecha (fechaDe f0) (fr.map fechaDe)) ∧
            pyUpper f.medicamento ≠ "PRESERVATIVO MASCULINO") =
          formulasDelDiaMax plan.formulas_medicas (maxFecha (fechaDe f0) (fr.map fechaDe)) := by
        unfold formulasDelDiaMax
        refine List.filter_congr ?_
        intro f hf
        refine decide_eq_decide.mpr (and_congr_left' ?_)
        constructor
        · intro hstr
          rw [hstr, hgmaxfmt]
          exact hgmaxparse
        · intro hpf
          obtain ⟨d, hd, hfmt⟩ := hcanon f hf
          rw [hd] at hpf
          rw [← hfmt, Option.some_inj.mp hpf]
      have hne : plan.formulas_medicas.isEmpty = false := by rw [hfs]; rfl
      have hp' : parseFechas plan.formulas_medicas =
          some (fechaDe f0 :: List.map fechaDe fr) := by
        rw [hfs]; simpa using hp
      rw [Prod.ext_iff]
      constructor
      · show (filtrar_formulas_recientes plan).1 = _
        simp only [filtrar_formulas_recientes, hne, hp', Bool.false_eq_true,
          if_false]
        rw [hfilter]
      · show (filtrar_formulas_recientes plan).2 = _
        simp only [filtrar_formulas_recientes, hne, hp', Bool.false_eq_true,
          if_false]
        rw [hfilter]

/-- **C1 counterexample** to the unamended claim: Python's `%Y-%m-%d`
parsing is lenient (`"2024-1-5"` parses), but the filter compares the
raw string against the zero-padded `strftime` of the maximum, so an
entry whose `fecha` *is* the maximum date present is dropped when it is
not zero-padded: the claimed output is the whole singleton list, the
actual output is empty. -/
theorem filtrar_formulas_recientes_cex :
    (∀ g ∈ (⟨[], [⟨"2024-1-5", "ABACAVIR", "1", "VIGENTE"⟩]⟩ : Plan).formulas_medicas,
       ∀ d, parseFecha g.fecha = some d → fechaLe d ⟨2024, 1, 5⟩) ∧
    parseFecha "2024-1-5" = some ⟨2024, 1, 5⟩ ∧
    formulasDelDiaMax [⟨"2024-1-5", "ABACAVIR", "1", "VIGENTE"⟩] ⟨2024, 1, 5⟩ =
      [⟨"2024-1-5", "ABACAVIR", "1", "VIGENTE"⟩] ∧
    (filtrar_formulas_recientes ⟨[], [⟨"2024-1-5", "ABACAVIR", "1", "VIGENTE"⟩]⟩).1 =
      some [] := by
  refine ⟨?_, by decide, by decide, by decide⟩
  intro g hg d hd
  have : g = ⟨"2024-1-5", "ABACAVIR", "1", "VIGENTE"⟩ := by
    simpa using hg
  subst this
  have : d = ⟨2024, 1, 5⟩ := by
    have h24 : parseFecha "2024-1-5" = some ⟨2024, 1, 5⟩ := by decide
    rw [h24] at hd
    exact (Option.some_inj.mp hd).symm
  subst this
  exact fechaLe_refl _

/-- Witness for the amended C1 at a concrete three-entry plan: two
dates, plus the excluded consumable on the latest date. -/
theorem filtrar_formulas_recientes_spec_witness :
    ∃ dmax,
      (∃ g ∈ (⟨[], [⟨"2024-01-10", "Abacavir", "30", "VIGENTE"⟩,
                     ⟨"2024-02-01", "Dolutegravir", "30", "VIGENTE"⟩,
                     ⟨"2024-02-01", "Preservativo Masculino", "10", "VIGENTE"⟩]⟩ : Plan).formulas_medicas,
         parseFecha g.fecha = some dmax) ∧
      (∀ g ∈ (⟨[], [⟨"2024-01-10", "Abacavir", "30", "VIGENTE"⟩,
                     ⟨"2024-02-01", "Dolutegravir", "30", "VIGENTE"⟩,
                     ⟨"2024-02-01", "Preservativo Masculino", "10", "VIGENTE"⟩]⟩ : Plan).formulas_medicas,
         ∀ d, parseFecha g.fecha = some d → fechaLe d dmax) ∧
      filtrar_formulas_recientes
          (⟨[], [⟨"2024-01-10", "Abacavir", "30", "VIGENTE"⟩,
                 ⟨"2024-02-01", "Dolutegravir", "30", "VIGENTE"⟩,
                 ⟨"2024-02-01", "Preservativo Masculino", "10", "VIGENTE"⟩]⟩ : Plan) =
        (some (formulasDelDiaMax
            [⟨"2024-01-10", "Abacavir", "30", "VIGENTE"⟩,
             ⟨"2024-02-01", "Dolutegravir", "30", "VIGENTE"⟩,
             ⟨"2024-02-01", "Preservativo Masculino", "10", "VIGENTE"⟩] dmax),
         { (⟨[], [⟨"2024-01-10", "Abacavir", "30", "VIGENTE"⟩,
                  ⟨"2024-02-01", "Dolutegravir", "30", "VIGENTE"⟩,
                  ⟨"2024-02-01", "Preservativo Masculino", "10", "VIGENTE"⟩]⟩ : Plan) with
            formulas_medicas := formulasDelDiaMax
              [⟨"2024-01-10", "Abacavir", "30", "VIGENTE"⟩,
               ⟨"2024-02-01", "Dolutegravir", "30", "VIGENTE"⟩,
               ⟨"2024-02-01", "Preservativo Masculino", "10", "VIGENTE"⟩] dmax }) :=
  (filtrar_formulas_recientes_spec _).2 _ _ rfl (by
    intro f hf
    fin_cases hf
    · exact ⟨⟨2024, 1, 10⟩, by decide, by decide⟩
    · exact ⟨⟨2024, 2, 1⟩, by decide, by decide⟩
    · exact ⟨⟨2024, 2, 1⟩, by decide, by decide⟩)

/-! ## C9: modal opened only for classified rows -/

/-- **C9.**  A detail modal is opened (and an encounter recorded) only
for rows classified by case-insensitive substring matching of the
sub-activity text (column 1, stripped and upper-cased): if the text does
not contain `MEDICO`, `FARMACOTERAPÉUTICO` or `QUIMICO`, the row opens
no modal and contributes no encounter (the patient record is returned
unchanged); and whenever a row does produce an encounter, a `MEDICO`
match classifies it as medical while a `FARMACOTERAPÉUTICO` or
`QUIMICO` match (without `MEDICO`) classifies it as pharmacological. -/
theorem clasificacion_filas (fila : FilaEncuentro) :
    ((pyIn "MEDICO" (pyUpper (pyStrip (colD fila.columnas 1))) = false ∧
      pyIn "FARMACOTERAPÉUTICO" (pyUpper (pyStrip (colD fila.columnas 1))) = false ∧
      pyIn "QUIMICO" (pyUpper (pyStrip (colD fila.columnas 1))) = false) →
      procesarFila fila = none ∧
        ∀ p, capturar_y_procesar_historia [fila] p = p) ∧
    (∀ t e, procesarFila fila = some (t, e) →
      (pyIn "MEDICO" (pyUpper (pyStrip (colD fila.columnas 1))) = true ∧
        t = TipoProf.medico) ∨
      (pyIn "MEDICO" (pyUpper (pyStrip (colD fila.columnas 1))) = false ∧
        (pyIn "FARMACOTERAPÉUTICO" (pyUpper (pyStrip (colD fila.columnas 1))) = true ∨
         pyIn "QUIMICO" (pyUpper (pyStrip (colD fila.columnas 1))) = true) ∧
        t = TipoProf.quimico_farmaceutico)) := by
  constructor
  · rintro ⟨h1, h2, h3⟩
    have hnone : procesarFila fila = none := by
      unfold procesarFila
      split
      · rfl
      · simp only [h1, h2, h3, Bool.or_self, Bool.or_false, Bool.false_eq_true,
          if_false]
    exact ⟨hnone, fun p => by simp [capturar_y_procesar_historia, hnone]⟩
  · intro t e hsome
    by_cases hm : pyIn "MEDICO" (pyUpper (pyStrip (colD fila.columnas 1))) = true
    · left
      refine ⟨hm, ?_⟩
      simp only [procesarFila, hm, Bool.true_or, if_true] at hsome
      split at hsome
      · exact absurd hsome (by simp)
      · split at hsome
        · exact absurd hsome (by simp)
        · have h := Option.some_inj.mp hsome
          exact (congrArg Prod.fst h).symm
    · right
      have hm' : pyIn "MEDICO" (pyUpper (pyStrip (colD fila.columnas 1))) = false := by
        simpa using hm
      by_cases hfq :
          pyIn "FARMACOTERAPÉUTICO" (pyUpper (pyStrip (colD fila.columnas 1))) = true ∨
          pyIn "QUIMICO" (pyUpper (pyStrip (colD fila.columnas 1))) = true
      · refine ⟨hm', hfq, ?_⟩
        have hor : (pyIn "FARMACOTERAPÉUTICO" (pyUpper (pyStrip (colD fila.columnas 1))) ||
            pyIn "QUIMICO" (pyUpper (pyStrip (colD fila.columnas 1)))) = true := by
          rcases hfq with h | h <;> simp [h]
        simp only [procesarFila, hm', hor, Bool.false_or, Bool.false_eq_true,
          if_true, if_false] at hsome
        split at hsome
        · exact absurd hsome (by simp)
        · split at hsome
          · exact absurd hsome (by simp)
          · have h := Option.some_inj.mp hsome
            exact (congrArg Prod.fst h).symm
      · exfalso
        push_neg at hfq
        have hf' : pyIn "FARMACOTERAPÉUTICO" (pyUpper (pyStrip (colD fila.columnas 1))) = false := by
          simpa using hfq.1
        have hq' : pyIn "QUIMICO" (pyUpper (pyStrip (colD fila.columnas 1))) = false := by
          simpa using hfq.2
        simp only [procesarFila, hm', hf', hq', Bool.or_self, Bool.or_false,
          Bool.false_eq_true, if_false] at hsome
        split at hsome
        · exact absurd hsome (by simp)
        · exact absurd hsome (by simp)

/-- Witness for C9: a nursing row (`ENFERMERIA`) opens no modal and
leaves a concrete patient record unchanged. -/
theorem clasificacion_filas_witness :
    procesarFila ⟨["CONSULTA", "ENFERMERIA", "ANA", "2024-01-01 08:00"], true, []⟩ = none ∧
    capturar_y_procesar_historia
        [⟨["CONSULTA", "ENFERMERIA", "ANA", "2024-01-01 08:00"], true, []⟩]
        ⟨"N", "123", [], [], ⟨[], []⟩⟩ =
      ⟨"N", "123", [], [], ⟨[], []⟩⟩ :=
  ⟨((clasificacion_filas _).1 ⟨by decide, by decide, by decide⟩).1,
   ((clasificacion_filas _).1 ⟨by decide, by decide, by decide⟩).2 _⟩

/-! ## Key-set lemmas for the key-facts dict -/

/-- The effect of a sequence of dict assignments on the key list. -/
def keysAfter : List String → List String → List String
  | ks, [] => ks
  | ks, k :: rest => keysAfter (if ks.contains k then ks else ks ++ [k]) rest

theorem keys_dset {α : Type} (d : List (String × α)) (k : String) (v : α) :
    (dset d k v).map Prod.fst =
      if (d.map Prod.fst).contains k then d.map Prod.fst
      else d.map Prod.fst ++ [k] := by
  unfold dset
  split
  · next h =>
    rw [List.map_map]
    refine List.map_congr_left ?_
    intro kv _
    simp only [Function.comp_apply]
    split
    · next he => rw [← he]
    · rfl
  · rw [List.map_append]
    rfl

theorem keys_dsets {α : Type} (d : List (String × α)) (ps : List (String × α)) :
    (dsets d ps).map Prod.fst =
      keysAfter (d.map Prod.fst) (ps.map Prod.fst) := by
  induction ps generalizing d with
  | nil => rfl
  | cons kv rest ih =>
    show (dsets (dset d kv.1 kv.2) rest).map Prod.fst = _
    rw [ih, keys_dset]
    rfl

set_option maxRecDepth 8000

/-- The key set of the key-facts dict is the same fixed list for every
patient: the two conditional `update` calls only touch keys already
present in the literal. -/
theorem preparar_claves (today : String) (p : Paciente) :
    (preparar_datos_para_resumen today p).map Prod.fst = clavesDatosClave := by
  have hbase : (datosClaveBase today p).map Prod.fst = clavesDatosClave := by
    unfold datosClaveBase
    rw [keys_dsets]
    simp only [List.map_cons, List.map_nil]
    decide
  have hmed : ∀ (d : List (String × Val)) (u : Encuentro),
      d.map Prod.fst = clavesDatosClave →
      (updateMedico d u).map Prod.fst = clavesDatosClave := by
    intro d u hd
    unfold updateMedico
    rw [keys_dsets, hd]
    simp only [List.map_cons, List.map_nil]
    decide
  have hqf : ∀ (d : List (String × Val)) (u : Encuentro),
      d.map Prod.fst = clavesDatosClave →
      (updateQF today d u p).map Prod.fst = clavesDatosClave := by
    intro d u hd
    unfold updateQF
    rw [keys_dsets, hd]
    simp only [List.map_cons, List.map_nil]
    decide
  unfold preparar_datos_para_resumen
  split
  · split
    · exact hbase
    · cases seleccionarReciente p.historia_qf with
      | some uq => exact hqf _ uq hbase
      | none => exact hbase
  · split
    · rename_i um heq
      split
      · exact hmed _ um hbase
      · cases seleccionarReciente p.historia_qf with
        | some uq => exact hqf _ uq (hmed _ um hbase)
        | none => exact hmed _ um hbase
    · split
      · exact hbase
      · cases seleccionarReciente p.historia_qf with
        | some uq => exact hqf _ uq hbase
        | none => exact hbase

/-! ## C7: every key-facts field is present, with its default -/

/-- **C7 (amended).**  The key-facts mapping built by
`preparar_datos_para_resumen` contains every field of the fixed 40-key
set for every patient record (no missing key), and the function is total
— absent source sections or fields degrade to the field's default via
`.get(..., default)`.  The defaults are the empty string or empty list
for every field except `tipo_documento_id`, whose default is the
constant `"CC"` (the counterexample `preparar_datos_por_defecto_cex`
refutes the claim that every default is an empty string or empty list):
for a patient with no encounters the output is exactly the default
dict below, independently of the plan and of today's date. -/
theorem preparar_datos_por_defecto (today : String) (p : Paciente) :
    (preparar_datos_para_resumen today p).map Prod.fst = clavesDatosClave ∧
    preparar_datos_para_resumen "hoy" ⟨"", "", [], [], ⟨[], []⟩⟩ =
      [ ("nombre_paciente", .s ""), ("documento_id", .s ""),
        ("tipo_documento_id", .s "CC"), ("fecha_impresion", .s ""),
        ("fecha_diagnostico", .s ""), ("estadio_clinico", .s ""),
        ("antecedentes_patologicos", .s ""), ("antecedentes_farmacologicos", .s ""),
        ("antecedentes_quirurgicos", .s ""), ("lista_medicamentos", .l []),
        ("tipo_intervencion", .s ""), ("medico_enfermedad_actual", .s ""),
        ("medico_resumen_e_intervenciones", .s ""),
        ("quimico_seguimiento_farmacoterapeutico", .s ""),
        ("modalidad_intervencion", .s ""), ("diagnostico_principal", .s ""),
        ("antecedentes_actuales", .s ""), ("paciente_sexo", .s ""),
        ("paciente_edad", .s ""), ("otros_medicamentos", .s ""),
        ("alergias", .s ""), ("habitos_alimenticios", .s ""),
        ("habitos_toxicos", .s ""), ("hospitalizaciones_recientes", .s ""),
        ("fecha_paraclinico", .s ""), ("cv_paraclinico", .s ""),
        ("cd4_paraclinico", .s ""), ("profilaxis_antibiotica", .s ""),
        ("metas_terapeuticas", .s ""), ("medicamento_necesario", .s ""),
        ("medicamento_efectivo", .s ""), ("medicamento_seguro", .s ""),
        ("interacciones", .s ""), ("genotipo", .s ""),
        ("fecha_dispensacion", .s ""), ("modalidad_dispensacion", .s ""),
        ("adherencia_test", .s ""), ("tolerancia_test", .s ""),
        ("concepto_qf", .s ""), ("sugerencia_horarios", .l []) ] :=
  ⟨preparar_claves today p, by decide⟩

/-- **C7 counterexample** to the unamended claim: the default of
`tipo_documento_id` is the constant `"CC"`, not an empty string or
empty list. -/
theorem preparar_datos_por_defecto_cex :
    List.lookup "tipo_documento_id"
        (preparar_datos_para_resumen "2026-10-12" ⟨"", "", [], [], ⟨[], []⟩⟩) =
      some (Val.s "CC") ∧
    ¬ ∀ k v, List.lookup k (preparar_datos_para_resumen "2026-10-12"
        ⟨"", "", [], [], ⟨[], []⟩⟩) = some v → v = Val.s "" ∨ v = Val.l [] := by
  constructor
  · decide
  · intro h
    rcases h "tipo_documento_id" (Val.s "CC") (by decide) with h1 | h1 <;>
      exact absurd h1 (by decide)

/-! ## Brace-extraction lemmas -/

theorem idxOpenBrace_none {cs : List Char} (h : idxOpenBrace cs = none) :
    '{' ∉ cs := by
  induction cs with
  | nil => simp
  | cons c rest ih =>
    unfold idxOpenBrace at h
    split at h
    · exact absurd h (by simp)
    · next hc =>
      rw [Option.map_eq_none'] at h
      intro hmem
      rcases List.mem_cons.mp hmem with rfl | hmem
      · exact hc rfl
      · exact ih h hmem

theorem idxOpenBrace_spec {cs : List Char} {i : Nat} (h : idxOpenBrace cs = some i) :
    cs.get? i = some '{' ∧ ∀ k, cs.get? k = some '{' → i ≤ k := by
  induction cs generalizing i with
  | nil => simp [idxOpenBrace] at h
  | cons c rest ih =>
    unfold idxOpenBrace at h
    split at h
    · next hc =>
      obtain rfl : (0 : Nat) = i := Option.some_inj.mp h
      exact ⟨by simp [hc], fun k _ => Nat.zero_le k⟩
    · next hc =>
      rw [Option.map_eq_some'] at h
      obtain ⟨i', hi', rfl⟩ := h
      obtain ⟨hget, hmin⟩ := ih hi'
      refine ⟨by simpa using hget, ?_⟩
      intro k hk
      cases k with
      | zero =>
        exfalso
        exact hc (by simpa using hk)
      | succ k' =>
        have := hmin k' (by simpa using hk)
        omega

theorem idxCloseBrace_none {cs : List Char} (h : idxCloseBrace cs = none) :
    '}' ∉ cs := by
  induction cs with
  | nil => simp
  | cons c rest ih =>
    cases hr : idxCloseBrace rest with
    | some j' => simp [idxCloseBrace, hr] at h
    | none =>
      simp only [idxCloseBrace, hr] at h
      split at h
      · exact absurd h (by simp)
      · next hc =>
        intro hmem
        rcases List.mem_cons.mp hmem with rfl | hmem
        · exact hc rfl
        · exact ih hr hmem

theorem idxCloseBrace_spec {cs : List Char} {j : Nat} (h : idxCloseBrace cs = some j) :
    cs.get? j = some '}' ∧ ∀ k, cs.get? k = some '}' → k ≤ j := by
  induction cs generalizing j with
  | nil => simp [idxCloseBrace] at h
  | cons c rest ih =>
    cases hr : idxCloseBrace rest with
    | some j' =>
      simp only [idxCloseBrace, hr, Option.some.injEq] at h
      obtain ⟨hget, hmax⟩ := ih hr
      subst h
      refine ⟨by simpa using hget, ?_⟩
      intro k hk
      cases k with
      | zero => omega
      | succ k' =>
        have := hmax k' (by simpa using hk)
        omega
    | none =>
      simp only [idxCloseBrace, hr] at h
      split at h
      · next hc =>
        obtain rfl : (0 : Nat) = j := Option.some_inj.mp h
        refine ⟨by simp [hc], ?_⟩
        intro k hk
        cases k with
        | zero => exact Nat.le_refl 0
        | succ k' =>
          exfalso
          exact idxCloseBrace_none hr (List.get?_mem (by simpa using hk))
      · exact absurd h (by simp)

/-- `extractJson` fails exactly when no `'{'` occurs before a `'}'` —
i.e. when the response has no `{...}` substring at all. -/
theorem extractJson_none_iff (s : String) :
    extractJson s = none ↔
      ¬ ∃ i j, i < j ∧ s.data.get? i = some '{' ∧ s.data.get? j = some '}' := by
  constructor
  · rintro h ⟨i, j, hij, hi, hj⟩
    cases ho : idxOpenBrace s.data with
    | none => exact idxOpenBrace_none ho (List.get?_mem hi)
    | some i0 =>
      cases hc : idxCloseBrace s.data with
      | none => exact idxCloseBrace_none hc (List.get?_mem hj)
      | some j0 =>
        simp only [extractJson, ho, hc] at h
        split at h
        · exact absurd h (by simp)
        · next hlt =>
          have h1 := (idxOpenBrace_spec ho).2 i hi
          have h2 := (idxCloseBrace_spec hc).2 j hj
          omega
  · intro h
    cases ho : idxOpenBrace s.data with
    | none => simp [extractJson, ho]
    | some i0 =>
      cases hc : idxCloseBrace s.data with
      | none => simp [extractJson, ho, hc]
      | some j0 =>
        simp only [extractJson, ho, hc]
        split
        · next hlt =>
          exact absurd ⟨i0, j0, hlt, (idxOpenBrace_spec ho).1,
            (idxCloseBrace_spec hc).1⟩ h
        · rfl

/-! ## C6: fallback on unextractable or unparsable model output -/

/-- **C6.**  `resumir_paciente_con_bedrock` takes as enrichment payload
the substring of the response from the first `'{'` to the last `'}'`
and parses it as JSON (on success the parsed fields are merged over the
prepared dict).  When the response has no such substring (no `'{'`
before a `'}'`) or the payload does not parse, it does not raise:
it returns the complete prepared field object with `concepto_qf`
replaced by the `ERROR CRÍTICO` diagnostic string, every key of the
fixed field set still present, and every other field keeping its
prepared value. -/
theorem resumir_bedrock_spec
    (jparse : String → Except String (List (String × Val)))
    (today : String) (p : Paciente) (respuesta : String) :
    (extractJson respuesta = none ↔
      ¬ ∃ i j, i < j ∧ respuesta.data.get? i = some '{' ∧
        respuesta.data.get? j = some '}') ∧
    (extractJson respuesta = none →
      resumir_paciente_con_bedrock jparse today p respuesta =
        dset (preparar_datos_para_resumen today p) "concepto_qf"
          (.s (conceptoError
            "No se encontró un objeto JSON en la respuesta de la IA." respuesta)) ∧
      (resumir_paciente_con_bedrock jparse today p respuesta).map Prod.fst =
        clavesDatosClave ∧
      ∀ k, k ≠ "concepto_qf" →
        List.lookup k (resumir_paciente_con_bedrock jparse today p respuesta) =
          List.lookup k (preparar_datos_para_resumen today p)) ∧
    (∀ frag e, extractJson respuesta = some frag → jparse frag = .error e →
      resumir_paciente_con_bedrock jparse today p respuesta =
        dset (preparar_datos_para_resumen today p) "concepto_qf"
          (.s (conceptoError e respuesta)) ∧
      (resumir_paciente_con_bedrock jparse today p respuesta).map Prod.fst =
        clavesDatosClave ∧
      ∀ k, k ≠ "concepto_qf" →
        List.lookup k (resumir_paciente_con_bedrock jparse today p respuesta) =
          List.lookup k (preparar_datos_para_resumen today p)) ∧
    (∀ frag d, extractJson respuesta = some frag → jparse frag = .ok d →
      resumir_paciente_con_bedrock jparse today p respuesta =
        dsets (preparar_datos_para_resumen today p) d) := by
  have hkeys : ∀ v : Val,
      (dset (preparar_datos_para_resumen today p) "concepto_qf" v).map Prod.fst =
        clavesDatosClave := by
    intro v
    rw [keys_dset, preparar_claves]
    rw [if_pos (by decide : clavesDatosClave.contains "concepto_qf" = true)]
  refine ⟨extractJson_none_iff respuesta, ?_, ?_, ?_⟩
  · intro hnone
    have hres : resumir_paciente_con_bedrock jparse today p respuesta =
        dset (preparar_datos_para_resumen today p) "concepto_qf"
          (.s (conceptoError
            "No se encontró un objeto JSON en la respuesta de la IA." respuesta)) := by
      simp only [resumir_paciente_con_bedrock, hnone]
    refine ⟨hres, by rw [hres]; exact hkeys _, ?_⟩
    intro k hk
    rw [hres, lookup_dset_ne _ _ _ _ hk]
  · intro frag e hfrag herr
    have hres : resumir_paciente_con_bedrock jparse today p respuesta =
        dset (preparar_datos_para_resumen today p) "concepto_qf"
          (.s (conceptoError e respuesta)) := by
      simp only [resumir_paciente_con_bedrock, hfrag, herr]
    refine ⟨hres, by rw [hres]; exact hkeys _, ?_⟩
    intro k hk
    rw [hres, lookup_dset_ne _ _ _ _ hk]
  · intro frag d hfrag hok
    simp only [resumir_paciente_con_bedrock, hfrag, hok]

/-- Witness for C6: a response with no braces yields the fallback dict
with the diagnostic in `concepto_qf` and an untouched medical field. -/
theorem resumir_bedrock_spec_witness :
    resumir_paciente_con_bedrock (fun _ => .ok []) "2026-10-12"
        ⟨"", "", [], [], ⟨[], []⟩⟩ "sin json" =
      dset (preparar_datos_para_resumen "2026-10-12" ⟨"", "", [], [], ⟨[], []⟩⟩)
        "concepto_qf"
        (.s (conceptoError
          "No se encontró un objeto JSON en la respuesta de la IA." "sin json")) ∧
    List.lookup "fecha_diagnostico"
        (resumir_paciente_con_bedrock (fun _ => .ok []) "2026-10-12"
          ⟨"", "", [], [], ⟨[], []⟩⟩ "sin json") =
      List.lookup "fecha_diagnostico"
        (preparar_datos_para_resumen "2026-10-12" ⟨"", "", [], [], ⟨[], []⟩⟩) :=
  ⟨((resumir_bedrock_spec _ _ _ _).2.1 (by decide)).1,
   ((resumir_bedrock_spec _ _ _ _).2.1 (by decide)).2.2 "fecha_diagnostico" (by decide)⟩

/-! ## C8: where truncation actually happens -/

/-- A 600-character string, longer than every configured maximum in the
program (`max_chars = 500` in `resumir_paciente`, `[:500]` in the
fallback diagnostic). -/
def cadenaLarga : String := ⟨List.replicate 600 'a'⟩

/-- **C8 counterexample** to the claim as stated: on a successful
enrichment response (payload extracted and parsed), string fields are
merged into the record *without* truncation — a 600-character field
survives verbatim, exceeding every configured maximum (500). -/
theorem truncado_bedrock_cex :
    List.lookup "concepto_qf"
        (resumir_paciente_con_bedrock
          (fun _ => .ok [("concepto_qf", Val.s cadenaLarga)])
          "2026-10-12" ⟨"", "", [], [], ⟨[], []⟩⟩ "{}") =
      some (Val.s cadenaLarga) ∧
    pyLen cadenaLarga = 600 ∧ ¬ (600 ≤ 500) := by
  refine ⟨by decide, by decide, by decide⟩

/-- **C8 (amended).**  Truncation to a configured maximum happens in the
local-model path and in the fallback diagnostic, not in the Bedrock
merge: `resumir_paciente` returns the stripped generated text cut to
`max_chars` characters; the `ERROR CRÍTICO` diagnostic embeds only the
first 500 characters of the raw response; and a string field of a
successfully parsed Bedrock payload is merged into the record verbatim,
whatever its length. -/
theorem truncado_resumen_local (cedula generado : String) (max_chars : Nat)
    (jparse : String → Except String (List (String × Val)))
    (today : String) (p : Paciente) (respuesta frag : String) (v : String) :
    pyLen (resumir_paciente cedula generado max_chars).2 ≤ max_chars ∧
    (resumir_paciente cedula generado max_chars).1 = cedula ∧
    pyLen (pyTake respuesta 500) ≤ 500 ∧
    (extractJson respuesta = some frag →
      jparse frag = .ok [("concepto_qf", Val.s v)] →
      List.lookup "concepto_qf"
          (resumir_paciente_con_bedrock jparse today p respuesta) =
        some (Val.s v)) := by
  refine ⟨?_, rfl, ?_, ?_⟩
  · simp only [resumir_paciente, pyTake, pyLen]
    exact le_trans (Nat.le_of_eq (List.length_take _ _)) (Nat.min_le_left _ _)
  · simp only [pyTake, pyLen]
    exact le_trans (Nat.le_of_eq (List.length_take _ _)) (Nat.min_le_left _ _)
  · intro hfrag hok
    have hres : resumir_paciente_con_bedrock jparse today p respuesta =
        dsets (preparar_datos_para_resumen today p)
          [("concepto_qf", Val.s v)] := by
      simp only [resumir_paciente_con_bedrock, hfrag, hok]
    rw [hres]
    exact lookup_dset_self _ _ _

/-- Witness for the amended C8: a 600-character generation is cut to
500 characters locally, while the same 600-character field merged from
a parsed Bedrock payload keeps all 600. -/
theorem truncado_resumen_local_witness :
    pyLen (resumir_paciente "123" cadenaLarga 500).2 ≤ 500 ∧
    List.lookup "concepto_qf"
        (resumir_paciente_con_bedrock
          (fun _ => .ok [("concepto_qf", Val.s cadenaLarga)])
          "2026-10-12" ⟨"", "", [], [], ⟨[], []⟩⟩ "{}") =
      some (Val.s cadenaLarga) :=
  ⟨(truncado_resumen_local "123" cadenaLarga 500 (fun _ => .ok [("concepto_qf", Val.s cadenaLarga)])
      "2026-10-12" ⟨"", "", [], [], ⟨[], []⟩⟩ "{}" "{}" cadenaLarga).1,
   (truncado_resumen_local "123" cadenaLarga 500 (fun _ => .ok [("concepto_qf", Val.s cadenaLarga)])
      "2026-10-12" ⟨"", "", [], [], ⟨[], []⟩⟩ "{}" "{}" cadenaLarga).2.2.2
     (by decide) rfl⟩

/-! ## Lexicographic string-order lemmas -/

theorem lexLt_asymm : ∀ (a b : List Char), lexLt a b = true → lexLt b a = false := by
  intro a
  induction a with
  | nil =>
    intro b h
    cases b with
    | nil => simp [lexLt] at h
    | cons y ys => simp [lexLt]
  | cons x xs ih =>
    intro b h
    cases b with
    | nil => simp [lexLt] at h
    | cons y ys =>
      unfold lexLt at h ⊢
      split at h
      · next h1 =>
        rw [if_neg (show ¬ y.toNat < x.toNat by omega), if_pos h1]
      · next h1 =>
        split at h
        · exact absurd h (by simp)
        · next h2 =>
          rw [if_neg (by omega), if_neg (by omega)]
          exact ih ys h

theorem lexLt_neg_trans :
    ∀ (a b c : List Char), lexLt a b = false → lexLt b c = false →
      lexLt a c = false := by
  intro a
  induction a with
  | nil =>
    intro b c h1 h2
    cases b with
    | nil => exact h2
    | cons y ys => simp [lexLt] at h1
  | cons x xs ih =>
    intro b c h1 h2
    cases b with
    | nil =>
      cases c with
      | nil => simp [lexLt]
      | cons z zs => simp [lexLt] at h2
    | cons y ys =>
      cases c with
      | nil => simp [lexLt]
      | cons z zs =>
        unfold lexLt at h1 h2 ⊢
        split at h1
        · exact absurd h1 (by simp)
        · next hxy =>
          split at h2
          · exact absurd h2 (by simp)
          · next hyz =>
            rw [if_neg (show ¬ x.toNat < z.toNat by omega)]
            by_cases hzx : z.toNat < x.toNat
            · rw [if_pos hzx]
            · rw [if_neg hzx]
              rw [if_neg (show ¬ y.toNat < x.toNat by omega)] at h1
              rw [if_neg (show ¬ z.toNat < y.toNat by omega)] at h2
              exact ih ys zs h1 h2

theorem pyStrLe_of_not (a b : String) (h : pyStrLe a b = false) :
    pyStrLe b a = true := by
  unfold pyStrLe at h ⊢
  rw [Bool.not_eq_false'] at h
  rw [lexLt_asymm _ _ h]
  rfl

theorem pyStrLe_trans (a b c : String) (h1 : pyStrLe a b = true)
    (h2 : pyStrLe b c = true) : pyStrLe a c = true := by
  unfold pyStrLe at h1 h2 ⊢
  rw [Bool.not_eq_true'] at h1 h2 ⊢
  exact lexLt_neg_trans c.data b.data a.data h2 h1

/-! ## Stable-sort lemmas -/

theorem insStable_mem {α : Type} (le : α → α → Bool) (x : α) (l : List α) (z : α) :
    z ∈ insStable le x l ↔ z = x ∨ z ∈ l := by
  induction l with
  | nil => simp [insStable]
  | cons y ys ih =>
    unfold insStable
    split
    · simp [List.mem_cons]
    · simp only [List.mem_cons, ih]
      tauto

theorem stableSort_mem {α : Type} (le : α → α → Bool) (l : List α) (z : α) :
    z ∈ stableSort le l ↔ z ∈ l := by
  induction l with
  | nil => simp [stableSort]
  | cons x xs ih =>
    unfold stableSort
    rw [insStable_mem, ih, List.mem_cons]

theorem pairwise_insStable {α : Type} (le : α → α → Bool)
    (htot : ∀ a b, le a b = false → le b a = true)
    (htrans : ∀ a b c, le a b = true → le b c = true → le a c = true)
    (x : α) (l : List α) (hl : l.Pairwise (fun a b => le a b = true)) :
    (insStable le x l).Pairwise (fun a b => le a b = true) := by
  induction l with
  | nil => simp [insStable]
  | cons y ys ih =>
    unfold insStable
    rcases List.pairwise_cons.mp hl with ⟨hy, hys⟩
    split
    · next hxy =>
      refine List.pairwise_cons.mpr ⟨?_, hl⟩
      intro z hz
      rcases List.mem_cons.mp hz with rfl | hz
      · exact hxy
      · exact htrans _ _ _ hxy (hy z hz)
    · next hxy =>
      have hyx : le y x = true := htot _ _ (by simpa using hxy)
      refine List.pairwise_cons.mpr ⟨?_, ih hys⟩
      intro z hz
      rcases (insStable_mem le x ys z).mp hz with rfl | hz
      · exact hyx
      · exact hy z hz

theorem pairwise_stableSort {α : Type} (le : α → α → Bool)
    (htot : ∀ a b, le a b = false → le b a = true)
    (htrans : ∀ a b c, le a b = true → le b c = true → le a c = true)
    (l : List α) :
    (stableSort le l).Pairwise (fun a b => le a b = true) := by
  induction l with
  | nil => simp [stableSort]
  | cons x xs ih => exact pairwise_insStable le htot htrans x _ ih

/-- `sorted(..., key=fecha, reverse=True)[0]` of a non-empty encounter
list is an encounter of the list whose date-time string is maximal. -/
theorem seleccionar_max (l : List Encuentro) (hne : l ≠ []) :
    ∃ e, seleccionarReciente l = some e ∧ e ∈ l ∧
      ∀ x ∈ l, pyStrLe x.fecha_hora_encuentro e.fecha_hora_encuentro = true := by
  have htot : ∀ a b : Encuentro,
      (fun a b : Encuentro =>
        pyStrLe b.fecha_hora_encuentro a.fecha_hora_encuentro) a b = false →
      (fun a b : Encuentro =>
        pyStrLe b.fecha_hora_encuentro a.fecha_hora_encuentro) b a = true :=
    fun a b h => pyStrLe_of_not _ _ h
  have htrans : ∀ a b c : Encuentro,
      (fun a b : Encuentro =>
        pyStrLe b.fecha_hora_encuentro a.fecha_hora_encuentro) a b = true →
      (fun a b : Encuentro =>
        pyStrLe b.fecha_hora_encuentro a.fecha_hora_encuentro) b c = true →
      (fun a b : Encuentro =>
        pyStrLe b.fecha_hora_encuentro a.fecha_hora_encuentro) a c = true :=
    fun a b c h1 h2 => pyStrLe_trans _ _ _ h2 h1
  cases hs : stableSort
      (fun a b : Encuentro =>
        pyStrLe b.fecha_hora_encuentro a.fecha_hora_encuentro) l with
  | nil =>
    exfalso
    cases hl : l with
    | nil => exact hne hl
    | cons a as =>
      have : a ∈ stableSort
          (fun a b : Encuentro =>
            pyStrLe b.fecha_hora_encuentro a.fecha_hora_encuentro) l :=
        (stableSort_mem _ _ _).mpr (by rw [hl]; exact List.mem_cons_self _ _)
      rw [hs] at this
      simp at this
  | cons e t =>
    refine ⟨e, ?_, ?_, ?_⟩
    · unfold seleccionarReciente
      rw [hs]
      rfl
    · exact (stableSort_mem _ _ _).mp (by rw [hs]; exact List.mem_cons_self _ _)
    · intro x hx
      have hx' : x ∈ e :: t := by
        rw [← hs]
        exact (stableSort_mem _ _ _).mpr hx
      rcases List.mem_cons.mp hx' with rfl | hx'
      · unfold pyStrLe
        rw [Bool.not_eq_true']
        cases hlt : lexLt x.fecha_hora_encuentro.data x.fecha_hora_encuentro.data
        · rfl
        · exact absurd (lexLt_asymm _ _ hlt) (by rw [hlt]; simp)
      · have hpw := pairwise_stableSort
          (fun a b : Encuentro =>
            pyStrLe b.fecha_hora_encuentro a.fecha_hora_encuentro) htot htrans l
        rw [hs] at hpw
        exact (List.pairwise_cons.mp hpw).1 x hx'

/-! ## Field lookups through the two `update` calls -/

theorem updateMedico_lookups (d : List (String × Val)) (u : Encuentro) :
    List.lookup "fecha_diagnostico" (updateMedico d u) =
      some (.s (dget2 u.datos_del_modal "Enfermedad Actual" "Fecha de diagnóstico" "")) ∧
    List.lookup "estadio_clinico" (updateMedico d u) =
      some (.s (dget2 u.datos_del_modal "Enfermedad Actual" "Estadio Clínico" "")) ∧
    List.lookup "antecedentes_patologicos" (updateMedico d u) =
      some (.s (dget2 u.datos_del_modal "Antecedentes Médicos" "Patológicos" "")) ∧
    List.lookup "antecedentes_farmacologicos" (updateMedico d u) =
      some (.s (dget2 u.datos_del_modal "Antecedentes Médicos" "Farmacológicos" "")) ∧
    List.lookup "antecedentes_quirurgicos" (updateMedico d u) =
      some (.s (dget2 u.datos_del_modal "Antecedentes Médicos" "Quirúrgicos" "")) ∧
    List.lookup "medico_enfermedad_actual" (updateMedico d u) =
      some (.s (dget2 u.datos_del_modal "Enfermedad Actual" "Enfermedad Actual" "")) ∧
    List.lookup "medico_resumen_e_intervenciones" (updateMedico d u) =
      some (.s (dget2 u.datos_del_modal "Resumen e Intervenciones" "Acciones" "")) := by
  unfold updateMedico
  simp only [dsets, List.foldl_cons, List.foldl_nil]
  refine ⟨?_, ?_, ?_, ?_, ?_, ?_, ?_⟩
  · rw [lookup_dset_ne _ _ _ _ (by decide),
        lookup_dset_ne _ _ _ _ (by decide),
        lookup_dset_ne _ _ _ _ (by decide),
        lookup_dset_ne _ _ _ _ (by decide),
        lookup_dset_ne _ _ _ _ (by decide),
        lookup_dset_ne _ _ _ _ (by decide)]
    exact lookup_dset_self _ _ _
  · rw [lookup_dset_ne _ _ _ _ (by decide),
        lookup_dset_ne _ _ _ _ (by decide),
        lookup_dset_ne _ _ _ _ (by decide),
        lookup_dset_ne _ _ _ _ (by decide),
        lookup_dset_ne _ _ _ _ (by decide)]
    exact lookup_dset_self _ _ _
  · rw [lookup_dset_ne _ _ _ _ (by decide),
        lookup_dset_ne _ _ _ _ (by decide),
        lookup_dset_ne _ _ _ _ (by decide),
        lookup_dset_ne _ _ _ _ (by decide)]
    exact lookup_dset_self _ _ _
  · rw [lookup_dset_ne _ _ _ _ (by decide),
        lookup_dset_ne _ _ _ _ (by decide),
        lookup_dset_ne _ _ _ _ (by decide)]
    exact lookup_dset_self _ _ _
  · rw [lookup_dset_ne _ _ _ _ (by decide),
        lookup_dset_ne _ _ _ _ (by decide)]
    exact lookup_dset_self _ _ _
  · rw [lookup_dset_ne _ _ _ _ (by decide)]
    exact lookup_dset_self _ _ _
  · exact lookup_dset_self _ _ _

theorem updateQF_lookups (today : String) (d : List (String × Val))
    (u : Encuentro) (p : Paciente) :
    List.lookup "lista_medicamentos" (updateQF today d u p) =
      some (.l (p.plan_de_manejo.formulas_medicas.map (fun f =>
        "medicamento: " ++ f.medicamento ++ ", cantidad: " ++ f.cantidad ++
        ", fecha inicio: " ++ f.fecha))) ∧
    List.lookup "tipo_intervencion" (updateQF today d u p) =
      some (.s (dget2 u.datos_del_modal "Seguimiento Farmacoterapéutico" "Tipo de intervención" "PRESENCIAL")) ∧
    List.lookup "modalidad_intervencion" (updateQF today d u p) =
      some (.s (dget2 u.datos_del_modal "Seguimiento Farmacoterapéutico" "Modalidad de intervención" today)) ∧
    List.lookup "quimico_seguimiento_farmacoterapeutico" (updateQF today d u p) =
      some (.s (dget2 u.datos_del_modal "Seguimiento Farmacoterapéutico" "Descripción de la intervención" "")) := by
  unfold updateQF
  simp only [dsets, List.foldl_cons, List.foldl_nil]
  refine ⟨?_, ?_, ?_, ?_⟩
  · rw [lookup_dset_ne _ _ _ _ (by decide),
        lookup_dset_ne _ _ _ _ (by decide),
        lookup_dset_ne _ _ _ _ (by decide)]
    exact lookup_dset_self _ _ _
  · rw [lookup_dset_ne _ _ _ _ (by decide),
        lookup_dset_ne _ _ _ _ (by decide)]
    exact lookup_dset_self _ _ _
  · rw [lookup_dset_ne _ _ _ _ (by decide)]
    exact lookup_dset_self _ _ _
  · exact lookup_dset_self _ _ _

theorem updateQF_lookup_ne (today : String) (d : List (String × Val))
    (u : Encuentro) (p : Paciente) (k : String)
    (h1 : k ≠ "lista_medicamentos") (h2 : k ≠ "tipo_intervencion")
    (h3 : k ≠ "modalidad_intervencion")
    (h4 : k ≠ "quimico_seguimiento_farmacoterapeutico") :
    List.lookup k (updateQF today d u p) = List.lookup k d := by
  unfold updateQF
  simp only [dsets, List.foldl_cons, List.foldl_nil]
  rw [lookup_dset_ne _ _ _ _ h4, lookup_dset_ne _ _ _ _ h3,
      lookup_dset_ne _ _ _ _ h2, lookup_dset_ne _ _ _ _ h1]


/-- Shape of `preparar_datos_para_resumen` when the medical history is
non-empty and the sort selects `e`. -/
theorem preparar_eq_medico (today : String) (p : Paciente) (e : Encuentro)
    (hm : p.historia_medico.isEmpty = false)
    (hsel : seleccionarReciente p.historia_medico = some e) :
    preparar_datos_para_resumen today p =
      updateMedico (datosClaveBase today p) e ∨
    ∃ u, preparar_datos_para_resumen today p =
      updateQF today (updateMedico (datosClaveBase today p) e) u p := by
  unfold preparar_datos_para_resumen
  split
  · next h => rw [hm] at h; exact absurd h (by simp)
  · split
    · next u heq =>
      rw [hsel] at heq
      obtain rfl := Option.some_inj.mp heq
      split
      · left; rfl
      · split
        · next u' _ => right; exact ⟨u', rfl⟩
        · left; rfl
    · next heq =>
      rw [hsel] at heq
      exact absurd heq (by simp)

/-- Shape of `preparar_datos_para_resumen` when the pharmacological
history is non-empty and the sort selects `e`: the last update applied
is `updateQF` with `e`. -/
theorem preparar_eq_qf (today : String) (p : Paciente) (e : Encuentro)
    (hq : p.historia_qf.isEmpty = false)
    (hsel : seleccionarReciente p.historia_qf = some e) :
    ∃ d1, preparar_datos_para_resumen today p = updateQF today d1 e p := by
  unfold preparar_datos_para_resumen
  split
  · split
    · next h => rw [hq] at h; exact absurd h (by simp)
    · split
      · next u heq =>
        rw [hsel] at heq
        obtain rfl := Option.some_inj.mp heq
        exact ⟨_, rfl⟩
      · next heq =>
        rw [hsel] at heq
        exact absurd heq (by simp)
  · split
    · split
      · next h => rw [hq] at h; exact absurd h (by simp)
      · split
        · next u heq =>
          rw [hsel] at heq
          obtain rfl := Option.some_inj.mp heq
          exact ⟨_, rfl⟩
        · next heq =>
          rw [hsel] at heq
          exact absurd heq (by simp)
    · split
      · next h => rw [hq] at h; exact absurd h (by simp)
      · split
        · next u heq =>
          rw [hsel] at heq
          obtain rfl := Option.some_inj.mp heq
          exact ⟨_, rfl⟩
        · next heq =>
          rw [hsel] at heq
          exact absurd heq (by simp)

/-! ## C3: key facts come from the most recent encounter -/

/-- **C3.**  Key-fact derivation reads its fields from the encounter
whose `fecha_hora_encuentro` string is maximal under the (descending)
ordering of the date-time strings: for a non-empty medical history the
seven medical fields of `preparar_datos_para_resumen` are the modal
values of an encounter whose date-time string bounds every other one
from above, and likewise for the pharmacological history and its four
fields. -/
theorem preparar_encuentro_reciente (today : String) (p : Paciente) :
    (p.historia_medico ≠ [] →
      ∃ e, e ∈ p.historia_medico ∧
        (∀ x ∈ p.historia_medico,
          pyStrLe x.fecha_hora_encuentro e.fecha_hora_encuentro = true) ∧
        List.lookup "fecha_diagnostico" (preparar_datos_para_resumen today p) =
          some (.s (dget2 e.datos_del_modal "Enfermedad Actual" "Fecha de diagnóstico" "")) ∧
        List.lookup "estadio_clinico" (preparar_datos_para_resumen today p) =
          some (.s (dget2 e.datos_del_modal "Enfermedad Actual" "Estadio Clínico" "")) ∧
        List.lookup "antecedentes_patologicos" (preparar_datos_para_resumen today p) =
          some (.s (dget2 e.datos_del_modal "Antecedentes Médicos" "Patológicos" "")) ∧
        List.lookup "antecedentes_farmacologicos" (preparar_datos_para_resumen today p) =
          some (.s (dget2 e.datos_del_modal "Antecedentes Médicos" "Farmacológicos" "")) ∧
        List.lookup "antecedentes_quirurgicos" (preparar_datos_para_resumen today p) =
          some (.s (dget2 e.datos_del_modal "Antecedentes Médicos" "Quirúrgicos" "")) ∧
        List.lookup "medico_enfermedad_actual" (preparar_datos_para_resumen today p) =
          some (.s (dget2 e.datos_del_modal "Enfermedad Actual" "Enfermedad Actual" "")) ∧
        List.lookup "medico_resumen_e_intervenciones" (preparar_datos_para_resumen today p) =
          some (.s (dget2 e.datos_del_modal "Resumen e Intervenciones" "Acciones" ""))) ∧
    (p.historia_qf ≠ [] →
      ∃ e, e ∈ p.historia_qf ∧
        (∀ x ∈ p.historia_qf,
          pyStrLe x.fecha_hora_encuentro e.fecha_hora_encuentro = true) ∧
        List.lookup "lista_medicamentos" (preparar_datos_para_resumen today p) =
          some (.l (p.plan_de_manejo.formulas_medicas.map (fun f =>
            "medicamento: " ++ f.medicamento ++ ", cantidad: " ++ f.cantidad ++
            ", fecha inicio: " ++ f.fecha))) ∧
        List.lookup "tipo_intervencion" (preparar_datos_para_resumen today p) =
          some (.s (dget2 e.datos_del_modal "Seguimiento Farmacoterapéutico"
            "Tipo de intervención" "PRESENCIAL")) ∧
        List.lookup "modalidad_intervencion" (preparar_datos_para_resumen today p) =
          some (.s (dget2 e.datos_del_modal "Seguimiento Farmacoterapéutico"
            "Modalidad de intervención" today)) ∧
        List.lookup "quimico_seguimiento_farmacoterapeutico"
            (preparar_datos_para_resumen today p) =
          some (.s (dget2 e.datos_del_modal "Seguimiento Farmacoterapéutico"
            "Descripción de la intervención" ""))) := by
  constructor
  · intro hne
    obtain ⟨e, hsel, hmem, hmax⟩ := seleccionar_max p.historia_medico hne
    have hm : p.historia_medico.isEmpty = false := by
      cases hh : p.historia_medico with
      | nil => exact absurd hh hne
      | cons a as => rfl
    refine ⟨e, hmem, hmax, ?_⟩
    rcases preparar_eq_medico today p e hm hsel with heq | ⟨u, heq⟩ <;> rw [heq]
    · exact updateMedico_lookups (datosClaveBase today p) e
    · obtain ⟨h1, h2, h3, h4, h5, h6, h7⟩ :=
        updateMedico_lookups (datosClaveBase today p) e
      refine ⟨?_, ?_, ?_, ?_, ?_, ?_, ?_⟩ <;>
        rw [updateQF_lookup_ne _ _ _ _ _ (by decide) (by decide) (by decide) (by decide)]
      exacts [h1, h2, h3, h4, h5, h6, h7]
  · intro hne
    obtain ⟨e, hsel, hmem, hmax⟩ := seleccionar_max p.historia_qf hne
    have hq : p.historia_qf.isEmpty = false := by
      cases hh : p.historia_qf with
      | nil => exact absurd hh hne
      | cons a as => rfl
    obtain ⟨d1, heq⟩ := preparar_eq_qf today p e hq hsel
    refine ⟨e, hmem, hmax, ?_⟩
    rw [heq]
    exact updateQF_lookups today d1 e p

/-- Witness for C3: among three medical encounters dated 2024-01-10,
2024-03-01 and 2024-02-15, the fields are read from the 2024-03-01 one
(its modal carries the marker diagnosis date). -/
theorem preparar_encuentro_reciente_witness :
    ((⟨"N", "1", [⟨"C", "MEDICO", "A", "2024-01-10",
        [("Enfermedad Actual", [("Fecha de diagnóstico", "ENERO")])]⟩,
      ⟨"C", "MEDICO", "A", "2024-03-01",
        [("Enfermedad Actual", [("Fecha de diagnóstico", "MARZO")])]⟩,
      ⟨"C", "MEDICO", "A", "2024-02-15",
        [("Enfermedad Actual", [("Fecha de diagnóstico", "FEBRERO")])]⟩],
      [], ⟨[], []⟩⟩ : Paciente).historia_medico ≠ []) ∧
    (∃ e, e ∈ (⟨"N", "1", [⟨"C", "MEDICO", "A", "2024-01-10",
        [("Enfermedad Actual", [("Fecha de diagnóstico", "ENERO")])]⟩,
      ⟨"C", "MEDICO", "A", "2024-03-01",
        [("Enfermedad Actual", [("Fecha de diagnóstico", "MARZO")])]⟩,
      ⟨"C", "MEDICO", "A", "2024-02-15",
        [("Enfermedad Actual", [("Fecha de diagnóstico", "FEBRERO")])]⟩],
      [], ⟨[], []⟩⟩ : Paciente).historia_medico ∧
      (∀ x ∈ (⟨"N", "1", [⟨"C", "MEDICO", "A", "2024-01-10",
        [("Enfermedad Actual", [("Fecha de diagnóstico", "ENERO")])]⟩,
      ⟨"C", "MEDICO", "A", "2024-03-01",
        [("Enfermedad Actual", [("Fecha de diagnóstico", "MARZO")])]⟩,
      ⟨"C", "MEDICO", "A", "2024-02-15",
        [("Enfermedad Actual", [("Fecha de diagnóstico", "FEBRERO")])]⟩],
      [], ⟨[], []⟩⟩ : Paciente).historia_medico,
        pyStrLe x.fecha_hora_encuentro e.fecha_hora_encuentro = true)) ∧
    List.lookup "fecha_diagnostico"
      (preparar_datos_para_resumen "hoy" ⟨"N", "1", [⟨"C", "MEDICO", "A", "2024-01-10",
        [("Enfermedad Actual", [("Fecha de diagnóstico", "ENERO")])]⟩,
      ⟨"C", "MEDICO", "A", "2024-03-01",
        [("Enfermedad Actual", [("Fecha de diagnóstico", "MARZO")])]⟩,
      ⟨"C", "MEDICO", "A", "2024-02-15",
        [("Enfermedad Actual", [("Fecha de diagnóstico", "FEBRERO")])]⟩],
      [], ⟨[], []⟩⟩) = some (.s "MARZO") := by
  refine ⟨by decide, ?_, by decide⟩
  obtain ⟨e, hmem, hmax, _⟩ :=
    (preparar_encuentro_reciente "hoy" ⟨"N", "1", [⟨"C", "MEDICO", "A", "2024-01-10",
        [("Enfermedad Actual", [("Fecha de diagnóstico", "ENERO")])]⟩,
      ⟨"C", "MEDICO", "A", "2024-03-01",
        [("Enfermedad Actual", [("Fecha de diagnóstico", "MARZO")])]⟩,
      ⟨"C", "MEDICO", "A", "2024-02-15",
        [("Enfermedad Actual", [("Fecha de diagnóstico", "FEBRERO")])]⟩],
      [], ⟨[], []⟩⟩).1 (by decide)
  exact ⟨e, hmem, hmax⟩

/-! ## Whitespace / stripping lemmas for C2 -/

theorem ws_lower_eq (c : Char) (h : isWsChar c = true) : pyLowerChar c = c := by
  simp only [isWsChar, Bool.or_eq_true, decide_eq_true_eq] at h
  rcases h with ((((rfl | rfl) | rfl) | rfl) | rfl) | rfl <;> rfl

theorem stripData_decomp (cs : List Char) :
    ∃ a b, cs = a ++ stripData cs ++ b ∧
      (∀ c ∈ a, isWsChar c = true) ∧ (∀ c ∈ b, isWsChar c = true) := by
  refine ⟨cs.takeWhile isWsChar,
    ((cs.dropWhile isWsChar).reverse.takeWhile isWsChar).reverse, ?_, ?_, ?_⟩
  · conv_lhs => rw [← List.takeWhile_append_dropWhile isWsChar cs]
    rw [List.append_assoc]
    congr 1
    unfold stripData
    conv_lhs =>
      rw [← List.reverse_reverse (cs.dropWhile isWsChar),
        ← List.takeWhile_append_dropWhile isWsChar (cs.dropWhile isWsChar).reverse]
    rw [List.reverse_append]
  · exact fun c hc => List.mem_takeWhile_imp hc
  · intro c hc
    rw [List.mem_reverse] at hc
    exact List.mem_takeWhile_imp hc

theorem stripData_isInfixOf (cs : List Char) : stripData cs <:+: cs := by
  obtain ⟨a, b, hdec, _, _⟩ := stripData_decomp cs
  exact ⟨a, b, hdec.symm⟩

theorem infix_drop_ws_front :
    ∀ (a m k : List Char), (∀ c ∈ a, isWsChar c = true) →
      (∀ c, k.head? = some c → isWsChar c = false) →
      k <:+: (a ++ m) → k <:+: m := by
  intro a
  induction a with
  | nil =>
    intro m k _ _ h
    simpa using h
  | cons c rest ih =>
    intro m k hws hhd h
    rcases k with _ | ⟨k0, ks⟩
    · simp
    · rw [List.cons_append] at h
      rcases List.infix_cons_iff.mp h with hpre | hinf
      · exfalso
        rcases List.prefix_cons_iff.mp hpre with hnil | ⟨t, hkt, _⟩
        · simp at hnil
        · have hk0 : k0 = c := by
            injection hkt
          have hcw := hws c (List.mem_cons_self _ _)
          have hk0w := hhd k0 rfl
          rw [hk0] at hk0w
          rw [hk0w] at hcw
          exact Bool.false_ne_true hcw
      · exact ih m _ (fun d hd => hws d (List.mem_cons_of_mem _ hd)) hhd hinf

theorem infix_drop_ws_back (m b k : List Char)
    (hws : ∀ c ∈ b, isWsChar c = true)
    (hlast : ∀ c, k.getLast? = some c → isWsChar c = false)
    (h : k <:+: (m ++ b)) : k <:+: m := by
  have h' : k.reverse <:+: (b.reverse ++ m.reverse) := by
    rw [← List.reverse_append]
    exact List.reverse_infix.mpr h
  have h2 := infix_drop_ws_front b.reverse m.reverse k.reverse
    (fun c hc => hws c (List.mem_reverse.mp hc))
    (fun c hc => hlast c (by rwa [List.head?_reverse] at hc))
    h'
  exact List.reverse_infix.mp h2

/-- A case-insensitive occurrence in the full recorded name is also an
occurrence in the stripped name, provided the needle does not begin or
end with whitespace: the occurrence cannot overlap the stripped-off
whitespace padding. -/
theorem pyIn_lower_strip (k s : String)
    (hhd : ∀ c, (pyLower k).data.head? = some c → isWsChar c = false)
    (hlast : ∀ c, (pyLower k).data.getLast? = some c → isWsChar c = false)
    (h : pyIn (pyLower k) (pyLower s) = true) :
    pyIn (pyLower k) (pyLower (pyStrip s)) = true := by
  obtain ⟨a, b, hdec, hwa, hwb⟩ := stripData_decomp s.data
  unfold pyIn at h ⊢
  rw [decide_eq_true_eq] at h ⊢
  have hmap : (pyLower s).data =
      a.map pyLowerChar ++ ((stripData s.data).map pyLowerChar ++ b.map pyLowerChar) := by
    show s.data.map pyLowerChar = _
    conv_lhs => rw [hdec]
    rw [List.map_append, List.map_append, List.append_assoc]
  rw [hmap] at h
  have hwa' : ∀ c ∈ a.map pyLowerChar, isWsChar c = true := by
    intro c hc
    obtain ⟨c0, hc0, rfl⟩ := List.mem_map.mp hc
    rw [ws_lower_eq c0 (hwa c0 hc0)]
    exact hwa c0 hc0
  have hwb' : ∀ c ∈ b.map pyLowerChar, isWsChar c = true := by
    intro c hc
    obtain ⟨c0, hc0, rfl⟩ := List.mem_map.mp hc
    rw [ws_lower_eq c0 (hwb c0 hc0)]
    exact hwb c0 hc0
  have h1 := infix_drop_ws_front (a.map pyLowerChar) _ _ hwa' hhd h
  exact infix_drop_ws_back _ _ _ hwb' hlast h1

theorem lookup_mem {α : Type} {l : List (String × α)} {k : String} {v : α}
    (h : List.lookup k l = some v) : (k, v) ∈ l := by
  induction l with
  | nil => simp [List.lookup] at h
  | cons kv rest ih =>
    obtain ⟨a, b⟩ := kv
    rw [lookup_cons'] at h
    split at h
    · next he =>
      subst he
      obtain rfl := Option.some_inj.mp h
      exact List.mem_cons_self _ _
    · exact List.mem_cons_of_mem _ (ih h)

/-- Decidable per-key facts about the abbreviation table: every key is
already stripped, and no key starts or ends with whitespace after
lowering. -/
theorem siglas_claves_bien_formadas :
    ∀ kv ∈ SIGLAS_MEDICAMENTOS,
      pyStrip kv.1 = kv.1 ∧
      ((pyLower kv.1).data.head?.all fun c => ! isWsChar c) = true ∧
      ((pyLower kv.1).data.getLast?.all fun c => ! isWsChar c) = true := by
  decide

/-! ## C2: medication-name canonicalization -/

/-- **C2.**  `mapear_siglas_med` maps `mapearStep` over the list, and for
each entry: when the recorded name is exactly a table key, the
medication is replaced by that key's abbreviation; otherwise, when some
table key's name occurs case-insensitively inside the recorded name, the
medication is replaced by the abbreviation of such a key; a name
matching no key (neither exactly nor by containment) leaves the entry
unchanged. -/
theorem mapear_siglas_med_spec (fs : List Formula) (f : Formula) :
    mapear_siglas_med fs = fs.map mapearStep ∧
    (∀ v, List.lookup f.medicamento SIGLAS_MEDICAMENTOS = some v →
      (mapearStep f).medicamento = v) ∧
    (List.lookup f.medicamento SIGLAS_MEDICAMENTOS = none →
      (∃ kv ∈ SIGLAS_MEDICAMENTOS,
        pyIn (pyLower kv.1) (pyLower f.medicamento) = true) →
      ∃ kv ∈ SIGLAS_MEDICAMENTOS,
        pyIn (pyLower kv.1) (pyLower f.medicamento) = true ∧
        (mapearStep f).medicamento = kv.2) ∧
    ((¬ ∃ kv ∈ SIGLAS_MEDICAMENTOS,
        f.medicamento = kv.1 ∨
        pyIn (pyLower kv.1) (pyLower f.medicamento) = true) →
      mapearStep f = f) := by
  have hstripmatch : ∀ kv : String × String, kv ∈ SIGLAS_MEDICAMENTOS →
      pyIn (pyLower kv.1) (pyLower (pyStrip f.medicamento)) = true →
      pyIn (pyLower kv.1) (pyLower f.medicamento) = true := by
    intro kv _ h
    unfold pyIn at h ⊢
    rw [decide_eq_true_eq] at h ⊢
    refine h.trans ?_
    show List.map pyLowerChar (stripData f.medicamento.data) <:+:
      List.map pyLowerChar f.medicamento.data
    exact List.IsInfix.map pyLowerChar (stripData_isInfixOf f.medicamento.data)
  have hrecmatch : ∀ kv : String × String, kv ∈ SIGLAS_MEDICAMENTOS →
      pyIn (pyLower kv.1) (pyLower f.medicamento) = true →
      pyIn (pyLower kv.1) (pyLower (pyStrip f.medicamento)) = true := by
    intro kv hmem h
    obtain ⟨_, hhd, hl⟩ := siglas_claves_bien_formadas kv hmem
    refine pyIn_lower_strip kv.1 f.medicamento ?_ ?_ h
    · intro c hc
      rw [hc] at hhd
      simpa using hhd
    · intro c hc
      rw [hc] at hl
      simpa using hl
  have hselfin : pyIn (pyLower (pyStrip f.medicamento))
      (pyLower (pyStrip f.medicamento)) = true := by
    unfold pyIn
    rw [decide_eq_true_eq]
  refine ⟨rfl, ?_, ?_, ?_⟩
  · intro v hv
    have hmem := lookup_mem hv
    have hstrip : pyStrip f.medicamento = f.medicamento :=
      (siglas_claves_bien_formadas _ hmem).1
    simp only [mapearStep, hstrip, hv]
  · intro hnone hex
    obtain ⟨kv, hkvmem, hkvin⟩ := hex
    cases hlk : List.lookup (pyStrip f.medicamento) SIGLAS_MEDICAMENTOS with
    | some v' =>
      have hmem' := lookup_mem hlk
      refine ⟨(pyStrip f.medicamento, v'), hmem', ?_, ?_⟩
      · exact hstripmatch _ hmem' hselfin
      · simp only [mapearStep, hlk]
    | none =>
      have hfind : ∃ y, List.find? (fun kv =>
          pyIn (pyLower kv.1) (pyLower (pyStrip f.medicamento)))
          SIGLAS_MEDICAMENTOS = some y := by
        rw [← Option.isSome_iff_exists]
        rw [List.find?_isSome]
        exact ⟨kv, hkvmem, hrecmatch kv hkvmem hkvin⟩
      obtain ⟨y, hy⟩ := hfind
      have hymem := List.mem_of_find?_eq_some hy
      have hyin := List.find?_some hy
      refine ⟨y, hymem, hstripmatch y hymem hyin, ?_⟩
      simp only [mapearStep, hlk, hy, Option.map_some']
  · intro hno
    cases hlk : List.lookup (pyStrip f.medicamento) SIGLAS_MEDICAMENTOS with
    | some v' =>
      exfalso
      have hmem' := lookup_mem hlk
      exact hno ⟨(pyStrip f.medicamento, v'), hmem',
        Or.inr (hstripmatch _ hmem' hselfin)⟩
    | none =>
      cases hfd : List.find? (fun kv =>
          pyIn (pyLower kv.1) (pyLower (pyStrip f.medicamento)))
          SIGLAS_MEDICAMENTOS with
      | some y =>
        exfalso
        have hymem := List.mem_of_find?_eq_some hfd
        have hyin : pyIn (pyLower y.1) (pyLower (pyStrip f.medicamento)) = true := by
          simpa using List.find?_some hfd
        exact hno ⟨y, hymem, Or.inr (hstripmatch y hymem hyin)⟩
      | none =>
        simp only [mapearStep, hlk, hfd, Option.map_none']

/-- Witness for C2: an exact key maps to its abbreviation, a containment
match maps, an unknown name is unchanged. -/
theorem mapear_siglas_med_spec_witness :
    mapear_siglas_med [⟨"2024-01-01", "Abacavir", "30", "V"⟩] =
      [⟨"2024-01-01", "Abacavir", "30", "V"⟩].map mapearStep ∧
    (mapearStep ⟨"2024-01-01", "Abacavir", "30", "V"⟩).medicamento = "ABC" ∧
    (∃ kv ∈ SIGLAS_MEDICAMENTOS,
      pyIn (pyLower kv.1)
        (pyLower (⟨"2024-01-01", "TABLETA DOLUTEGRAVIR 50MG", "30", "V"⟩ : Formula).medicamento) = true ∧
      (mapearStep (⟨"2024-01-01", "TABLETA DOLUTEGRAVIR 50MG", "30", "V"⟩ : Formula)).medicamento = kv.2) ∧
    mapearStep ⟨"2024-01-01", "Paracetamol", "30", "V"⟩ =
      ⟨"2024-01-01", "Paracetamol", "30", "V"⟩ := by
  refine ⟨(mapear_siglas_med_spec [⟨"2024-01-01", "Abacavir", "30", "V"⟩]
      ⟨"2024-01-01", "Abacavir", "30", "V"⟩).1, ?_, ?_, ?_⟩
  · exact (mapear_siglas_med_spec [] ⟨"2024-01-01", "Abacavir", "30", "V"⟩).2.1
      "ABC" (by decide)
  · exact (mapear_siglas_med_spec []
      ⟨"2024-01-01", "TABLETA DOLUTEGRAVIR 50MG", "30", "V"⟩).2.2.1
      (by decide) (by decide)
  · refine (mapear_siglas_med_spec [] ⟨"2024-01-01", "Paracetamol", "30", "V"⟩).2.2.2 ?_
    decide

/-! ## C4: the section parser returns exactly the valid sections -/

/-- Claim-side description (spec §4.2 / §8): the structurally valid
sections of a fragment — each section block paired with its heading
text, in document order. -/
def seccionesValidas (frag : List HNode) : List (String × HNode) :=
  (descendList (hMatches "div" (some "filament-forms-section-component")) frag).filterMap
    (fun seccion => (findIn "h3" (some "pointer-events-none") seccion).map
      (fun header => (getTextStrip "" header, seccion)))

/-- Claim-side description: the well-formed label/value pairs of one
section — field blocks having both a label and a placeholder value,
with the label normalized and the value rendered (or the sentinel). -/
def camposValidos (seccion : HNode) : List (String × String) :=
  (findAllIn "div" (some "filament-forms-field-wrapper") seccion).filterMap campoPar

theorem foldl_dset_filterMap {α β : Type} (g : β → Option (String × α)) :
    ∀ (l : List β) (d : List (String × α)),
      l.foldl (fun acc x =>
        match g x with
        | some kv => dset acc kv.1 kv.2
        | none => acc) d =
      dsets d (l.filterMap g) := by
  intro l
  induction l with
  | nil => intro d; rfl
  | cons x rest ih =>
    intro d
    rw [List.foldl_cons, List.filterMap_cons]
    cases hg : g x with
    | none => exact ih d
    | some kv => exact ih (dset d kv.1 kv.2)

theorem contains_append_iff (l₁ l₂ : List String) (k : String) :
    (l₁ ++ l₂).contains k = (l₁.contains k || l₂.contains k) := by
  induction l₁ with
  | nil => simp
  | cons a as ih => simp [List.contains_cons, ih, Bool.or_assoc]

theorem dsets_nodup {α : Type} :
    ∀ (ps : List (String × α)) (d : List (String × α)),
      (ps.map Prod.fst).Nodup →
      (∀ k ∈ ps.map Prod.fst, ¬ (d.map Prod.fst).contains k = true) →
      dsets d ps = d ++ ps := by
  intro ps
  induction ps with
  | nil => intro d _ _; simp [dsets]
  | cons q rest ih =>
    intro d hnd hdisj
    show dsets (dset d q.1 q.2) rest = d ++ q :: rest
    rw [dset_fresh d q.1 q.2 (hdisj q.1 (by simp))]
    rw [ih (d ++ [(q.1, q.2)]) (by simpa using hnd.of_cons)]
    · simp
    · intro k hk
      rw [List.map_append, contains_append_iff]
      simp only [Bool.or_eq_true, not_or]
      constructor
      · exact hdisj k (by simp [hk])
      · have hq : k ≠ q.1 := by
          rcases List.pairwise_cons.mp hnd with ⟨hq1, _⟩
          intro he
          exact hq1 k hk he.symm
        simp [List.contains_cons, hq]

theorem seccionesValidas_pairs (frag : List HNode) :
    (descendList (hMatches "div" (some "filament-forms-section-component")) frag).filterMap
      (fun seccion => (findIn "h3" (some "pointer-events-none") seccion).map
        (fun header => (getTextStrip "" header, camposFold seccion))) =
    (seccionesValidas frag).map (fun ts => (ts.1, camposFold ts.2)) := by
  unfold seccionesValidas
  generalize descendList (hMatches "div" (some "filament-forms-section-component")) frag = l
  induction l with
  | nil => rfl
  | cons s rest ih =>
    rw [List.filterMap_cons, List.filterMap_cons]
    cases hf : findIn "h3" (some "pointer-events-none") s with
    | none => simpa using ih
    | some header => simpa using ih

/-- **C4 (amended).**  For a fragment whose structurally valid sections
have pairwise-distinct titles and, inside each valid section,
pairwise-distinct normalized labels among its well-formed fields,
`extraer_secciones_modal` returns exactly those section titles, each
mapped to exactly its well-formed label/value pairs (in document order);
sections without a heading and fields without a paired label/value are
silently skipped, and a field whose rendered value is empty is stored
as the sentinel `"No especificado"`.  The distinctness hypotheses are
forced by the counterexample `extraer_secciones_modal_cex`: a repeated
title resets the section's dict, losing the earlier pairs. -/
theorem extraer_secciones_modal_spec (frag : List HNode)
    (h1 : ((seccionesValidas frag).map Prod.fst).Nodup)
    (h2 : ∀ ts ∈ seccionesValidas frag, ((camposValidos ts.2).map Prod.fst).Nodup) :
    extraer_secciones_modal frag =
      (seccionesValidas frag).map (fun ts => (ts.1, camposValidos ts.2)) ∧
    (∀ n : HNode, pySplitWs (getTextStrip " " n) = [] →
      valorDe n = "No especificado") := by
  constructor
  · have h0 : extraer_secciones_modal frag =
        dsets []
          ((descendList (hMatches "div" (some "filament-forms-section-component")) frag).filterMap
            (fun seccion => (findIn "h3" (some "pointer-events-none") seccion).map
              (fun header => (getTextStrip "" header, camposFold seccion)))) := by
      unfold extraer_secciones_modal
      rw [← foldl_dset_filterMap]
      congr 1
      funext acc seccion
      cases hd : findIn "h3" (some "pointer-events-none") seccion <;> simp [hd]
    have hinner : ∀ ts ∈ seccionesValidas frag,
        camposFold ts.2 = camposValidos ts.2 := by
      intro ts hts
      conv_rhs => rw [← List.nil_append (camposValidos ts.2)]
      rw [← dsets_nodup (camposValidos ts.2) [] (h2 ts hts) (by simp)]
      unfold camposFold camposValidos
      rw [← foldl_dset_filterMap]
      congr 1
      funext acc campo
      cases hc : campoPar campo <;> simp [hc]
    rw [h0, seccionesValidas_pairs]
    have hkeys : (((seccionesValidas frag).map
        (fun ts => (ts.1, camposFold ts.2))).map Prod.fst).Nodup := by
      rw [List.map_map]
      exact h1
    rw [dsets_nodup _ [] hkeys (by simp)]
    rw [List.nil_append]
    refine List.map_congr_left ?_
    intro ts hts
    rw [hinner ts hts]
  · intro n h
    unfold valorDe
    rw [h]
    rfl

/-- A fragment with two valid sections that share the title `"A"`: the
first carries one well-formed field, the second none. -/
def fragTitulosRepetidos : List HNode :=
  [ .el "div" ["filament-forms-section-component"]
      [ .el "h3" ["pointer-events-none"] [.txt "A"],
        .el "div" ["filament-forms-field-wrapper"]
          [ .el "label" [] [.txt "x"],
            .el "div" ["filament-forms-placeholder-component"] [.txt "1"] ] ],
    .el "div" ["filament-forms-section-component"]
      [ .el "h3" ["pointer-events-none"] [.txt "A"] ] ]

/-- **C4 counterexample** to the unamended claim: with two structurally
valid sections (N = 2) sharing a title, the parser returns one key, and
the first section's pairs are lost — not "exactly those N section
titles, each containing exactly its well-formed pairs". -/
theorem extraer_secciones_modal_cex :
    (seccionesValidas fragTitulosRepetidos).length = 2 ∧
    (seccionesValidas fragTitulosRepetidos).map
      (fun ts => (ts.1, camposValidos ts.2)) =
      [("A", [("x", "1")]), ("A", [])] ∧
    extraer_secciones_modal fragTitulosRepetidos = [("A", [])] ∧
    extraer_secciones_modal fragTitulosRepetidos ≠
      (seccionesValidas fragTitulosRepetidos).map
        (fun ts => (ts.1, camposValidos ts.2)) := by
  refine ⟨by decide, by decide, by decide, by decide⟩

/-- Witness for the amended C4: two distinct sections; an ill-formed
field (no label) is skipped and an empty-rendered value becomes the
sentinel. -/
theorem extraer_secciones_modal_spec_witness :
    extraer_secciones_modal
        [ .el "div" ["filament-forms-section-component"]
            [ .el "h3" ["pointer-events-none"] [.txt "Uno"],
              .el "div" ["filament-forms-field-wrapper"]
                [ .el "label" [] [.txt "Peso"],
                  .el "div" ["filament-forms-placeholder-component"] [.txt " 70  kg "] ],
              .el "div" ["filament-forms-field-wrapper"]
                [ .el "div" ["filament-forms-placeholder-component"] [.txt "sin label"] ],
              .el "div" ["filament-forms-field-wrapper"]
                [ .el "label" [] [.txt "Talla"],
                  .el "div" ["filament-forms-placeholder-component"] [.txt "   "] ] ],
          .el "div" ["filament-forms-section-component"]
            [ .el "h3" ["pointer-events-none"] [.txt "Dos"] ] ] =
      (seccionesValidas
        [ .el "div" ["filament-forms-section-component"]
            [ .el "h3" ["pointer-events-none"] [.txt "Uno"],
              .el "div" ["filament-forms-field-wrapper"]
                [ .el "label" [] [.txt "Peso"],
                  .el "div" ["filament-forms-placeholder-component"] [.txt " 70  kg "] ],
              .el "div" ["filament-forms-field-wrapper"]
                [ .el "div" ["filament-forms-placeholder-component"] [.txt "sin label"] ],
              .el "div" ["filament-forms-field-wrapper"]
                [ .el "label" [] [.txt "Talla"],
                  .el "div" ["filament-forms-placeholder-component"] [.txt "   "] ] ],
          .el "div" ["filament-forms-section-component"]
            [ .el "h3" ["pointer-events-none"] [.txt "Dos"] ] ]).map
        (fun ts => (ts.1, camposValidos ts.2)) ∧
    extraer_secciones_modal
        [ .el "div" ["filament-forms-section-component"]
            [ .el "h3" ["pointer-events-none"] [.txt "Uno"],
              .el "div" ["filament-forms-field-wrapper"]
                [ .el "label" [] [.txt "Peso"],
                  .el "div" ["filament-forms-placeholder-component"] [.txt " 70  kg "] ],
              .el "div" ["filament-forms-field-wrapper"]
                [ .el "div" ["filament-forms-placeholder-component"] [.txt "sin label"] ],
              .el "div" ["filament-forms-field-wrapper"]
                [ .el "label" [] [.txt "Talla"],
                  .el "div" ["filament-forms-placeholder-component"] [.txt "   "] ] ],
          .el "div" ["filament-forms-section-component"]
            [ .el "h3" ["pointer-events-none"] [.txt "Dos"] ] ] =
      [("Uno", [("Peso", "70 kg"), ("Talla", "No especificado")]), ("Dos", [])] :=
  ⟨(extraer_secciones_modal_spec _ (by decide) (by decide)).1, by decide⟩
